import Mathlib

/-!
Verification development for the Tzelem backend (flow translator, Agentic and
Sequential flow engines, mail API, runs API).  The Python sources are embedded
shallowly: pure functions become Lean functions, dictionary mutation becomes
explicit state passing, exceptions become `Except` / `Option` results, and the
Python recursion limit is modelled with an explicit fuel argument
(fuel exhaustion corresponds to `RecursionError`).
-/

set_option maxHeartbeats 1000000

namespace Tzelem

/-! ## Python dictionaries

A Python `dict` with string keys is modelled as an association list with the
insertion-order semantics of CPython: assigning to an existing key replaces the
value in place, assigning to a fresh key appends. -/

abbrev Dict (V : Type) := List (String × V)

def dictGet? (d : Dict V) (k : String) : Option V :=
  match d with
  | [] => none
  | (k', v) :: rest => if k' = k then some v else dictGet? rest k

/-- Python `d[k] = v`. -/
def dictSet (d : Dict V) (k : String) (v : V) : Dict V :=
  match d with
  | [] => [(k, v)]
  | (k', v') :: rest => if k' = k then (k', v) :: rest else (k', v') :: dictSet rest k v

def dictKeys (d : Dict V) : List String := d.map Prod.fst

def dictHasKey (d : Dict V) (k : String) : Bool := (dictGet? d k).isSome

/-- Python truthiness of an optional string (`None` and `""` are falsy). -/
def truthyS : Option String → Bool
  | none => false
  | some s => s ≠ ""

/-! ## Python exceptions -/

inductive PyErr where
  | keyError (key : String)
  | attributeError (msg : String)
  | valueError (msg : String)
  | recursionError
  | indexError
  | runtimeError (msg : String)
  | flowTranslationError (msg : String)
deriving DecidableEq, Repr

/-- `str(e)` for the exceptions above. -/
def PyErr.str : PyErr → String
  | .keyError k => "\x27" ++ k ++ "\x27"
  | .attributeError m => m
  | .valueError m => m
  | .recursionError => "maximum recursion depth exceeded"
  | .indexError => "list index out of range"
  | .runtimeError m => m
  | .flowTranslationError m => m

/-- `d[k]` on a field that models an optional dictionary entry. -/
def pyKey (o : Option α) (k : String) : Except PyErr α :=
  match o with
  | some v => .ok v
  | none => .error (.keyError k)

/-! ## Decimal rendering of naturals

`natStr` models Python `str(i)` for the non-negative integers used as child
indices; it is defined from first principles so that we can prove that the
rendering never contains an underscore and is injective, which is what the
uniqueness of sequential identifiers rests on. -/

def digitChar (n : Nat) : Char :=
  if n = 0 then '0' else if n = 1 then '1' else if n = 2 then '2'
  else if n = 3 then '3' else if n = 4 then '4' else if n = 5 then '5'
  else if n = 6 then '6' else if n = 7 then '7' else if n = 8 then '8' else '9'

def natCharsAux : Nat → Nat → List Char
  | 0, _ => []
  | fuel + 1, n =>
    if n < 10 then [digitChar n]
    else natCharsAux fuel (n / 10) ++ [digitChar (n % 10)]

def natChars (n : Nat) : List Char := natCharsAux (n + 1) n

def natStr (n : Nat) : String := ⟨natChars n⟩

/-- Value of a digit list, used to invert `natChars`. -/
def digitsVal (l : List Char) : Nat :=
  l.foldl (fun a c => 10 * a + (c.toNat - 48)) 0

/-! ## Tree-position identifiers

Both the flow translator and the sequential engine stamp the identifier
`"X_i"` onto the i-th (1-based) child of a node with identifier `X`, with root
`"1"`.  `extendIdent` is the resulting encoding of a path of child indices;
its injectivity is what makes all identifiers in one tree pairwise distinct. -/

def extendIdent (base : String) (p : List Nat) : String :=
  p.foldl (fun s i => s ++ "_" ++ natStr i) base

/-- Reversed-path form of `extendIdent "1"`. -/
def identRev : List Nat → String
  | [] => "1"
  | i :: r => identRev r ++ "_" ++ natStr i

/-! ## Flow translator (`core/flow_translator.py`)

Frontend nodes and edges are dictionaries; the fields the translator reads are
embedded as optional record fields (`none` = key absent), and `data`,
`config` sub-dictionaries default to empty records exactly as
`node.get("data", {})` defaults to `{}`. -/

structure ToolCfg where
  url : Option String := none
deriving DecidableEq, Repr

structure Tool where
  type : Option String := none
  config : ToolCfg := {}
deriving DecidableEq, Repr

structure SchemaField where
  name : Option String := none
  fieldType : Option String := none
  required : Option Bool := none
deriving DecidableEq, Repr

structure MailNodeCfg where
  subject : Option String := none
  fromName : Option String := none
  recipient : Option String := none
deriving DecidableEq, Repr

structure NodeData where
  systemPrompt : Option String := none
  model : Option String := none
  tools : List Tool := []
  config : MailNodeCfg := {}
  schema : List SchemaField := []
  routes : List String := []
deriving DecidableEq, Repr

structure Node where
  id : Option String := none
  type : Option String := none
  data : NodeData := {}
deriving DecidableEq, Repr

structure Edge where
  source : Option String := none
  target : Option String := none
deriving DecidableEq, Repr

/-- ASCII lowercasing, modelling Python `str.lower()` on the ASCII type and
paradigm tags the translator compares against. -/
def charLower (c : Char) : Char :=
  if 65 ≤ c.toNat ∧ c.toNat ≤ 90 then Char.ofNat (c.toNat + 32) else c

def pyLower (s : String) : String := ⟨s.data.map charLower⟩

/-- `node.get("type", "").lower()` -/
def nodeTypeLower (n : Node) : String := pyLower (n.type.getD "")

def isExecType (n : Node) : Bool :=
  nodeTypeLower n = "executionagent" ∨ nodeTypeLower n = "mailagent" ∨
    nodeTypeLower n = "datacollectionagent" ∨ nodeTypeLower n = "routingagent"

/-- Agentic sub-agent data point `{name, type, required}`. -/
structure AgenticDataPoint where
  name : String
  pointType : String
  required : Bool
deriving DecidableEq, Repr

/-- One entry of the agentic `subAgents` list (absent keys are `none`). -/
structure SubAgent where
  type : String
  prompt : String
  url : Option String := none
  subject : Option String := none
  fromName : Option String := none
  recipient : Option String := none
  dataPoints : Option (List AgenticDataPoint) := none
  collectData : Option Bool := none
  routes : Option (List String) := none
  isRouter : Option Bool := none
deriving DecidableEq, Repr

structure AgenticConfig where
  subAgents : List SubAgent
  masterPrompt : String
  masterModel : Option String
deriving DecidableEq, Repr

/-- First `web_browser` tool with a truthy configured url (the Python loop
`break`s only when `url` is truthy). -/
def firstWebBrowserUrl : List Tool → Option String
  | [] => none
  | t :: ts =>
    if t.type = some "web_browser" then
      match t.config.url with
      | some u => if u ≠ "" then some u else firstWebBrowserUrl ts
      | none => firstWebBrowserUrl ts
    else firstWebBrowserUrl ts

def convert_node_to_sub_agent (n : Node) : Option SubAgent :=
  let t := nodeTypeLower n
  let d := n.data
  if t = "executionagent" then
    some { type := "browser-agent",
           prompt := d.systemPrompt.getD "Execute the given task using browser automation",
           url := firstWebBrowserUrl d.tools }
  else if t = "mailagent" then
    some { type := "mail-agent",
           prompt := d.systemPrompt.getD "Send an email based on the conversation context",
           subject := some (d.config.subject.getD "Message from Tzelem"),
           fromName := some (d.config.fromName.getD "Tzelem"),
           recipient := some (d.config.recipient.getD "user@example.com") }
  else if t = "datacollectionagent" then
    some { type := "browser-agent",
           prompt := d.systemPrompt.getD "Collect the required data points from the user",
           dataPoints := some (d.schema.map (fun f =>
             { name := f.name.getD "Unknown Field",
               pointType := f.fieldType.getD "string",
               required := f.required.getD false })),
           collectData := some true }
  else if t = "routingagent" then
    some { type := "browser-agent",
           prompt := d.systemPrompt.getD "Route the user request to the appropriate handler",
           routes := some d.routes,
           isRouter := some true }
  else none

/-- Python `set` restricted to the operations the translator uses, kept as an
insertion-ordered list so that set membership is decidable. -/
def setAdd (s : List String) (x : String) : List String :=
  if x ∈ s then s else s ++ [x]

def setUnion (s t : List String) : List String := t.foldl setAdd s

/-- One iteration of the edge loop inside `_find_connected_nodes`: a raised
error propagates, a matching edge adds its target and the recursive set. -/
def fcnStep (recurse : String → Except PyErr (List String)) (mid : String)
    (acc : Except PyErr (List String)) (e : Edge) : Except PyErr (List String) :=
  match acc with
  | .error er => .error er
  | .ok s =>
    if e.source = some mid then
      match e.target with
      | some t =>
        if t ≠ "" then
          match recurse t with
          | .ok sub => .ok (setUnion (setAdd s t) sub)
          | .error er => .error er
        else .ok s
      | none => .ok s
    else .ok s

/-- `FlowTranslator._find_connected_nodes`, with the Python recursion limit as
fuel; running out of fuel is a `RecursionError`. -/
def find_connected_nodes (edges : List Edge) : Nat → String → Except PyErr (List String)
  | 0, _ => .error .recursionError
  | fuel + 1, mid => edges.foldl (fcnStep (find_connected_nodes edges fuel) mid) (.ok [])

/-- `FlowTranslator.translate_to_agentic`: builds the sub-agent list from the
execution-typed nodes, in input order, filtered by connectivity to the master. -/
def buildSubAgents (connected : List String) :
    List Node → Except PyErr (List SubAgent)
  | [] => .ok []
  | n :: ns =>
    match n.id with
    | none => .error (.keyError "id")
    | some nid =>
      if nid ∈ connected then
        match convert_node_to_sub_agent n with
        | some sa =>
          match buildSubAgents connected ns with
          | .ok rest => .ok (sa :: rest)
          | .error er => .error er
        | none => buildSubAgents connected ns
      else buildSubAgents connected ns

def translate_to_agentic (fuel : Nat) (nodes : List Node) (edges : List Edge) :
    Except PyErr AgenticConfig :=
  let masterNode := (nodes.filter (fun n => nodeTypeLower n = "masteragent")).getLast?
  let executionNodes := nodes.filter isExecType
  match masterNode with
  | none => .error (.flowTranslationError "Agentic flow requires a MasterAgent node")
  | some m =>
    match m.id with
    | none => .error (.keyError "id")
    | some mid =>
      match find_connected_nodes edges fuel mid with
      | .error e => .error e
      | .ok connected =>
        match buildSubAgents connected executionNodes with
        | .error e => .error e
        | .ok subs =>
          .ok { subAgents := subs,
                masterPrompt := m.data.systemPrompt.getD "You are a master agent coordinating sub-agents.",
                masterModel := m.data.model }

/-! ### Sequential translation -/

structure SeqDataPoint where
  name : String
  value : String
deriving DecidableEq, Repr

structure EmailCfg where
  subject : String
  fromName : String
deriving DecidableEq, Repr

/-- The recursively nested agent produced by
`_convert_tree_to_sequential_agent`; `children = none` models the absence of
the `"children"` key (it is only set when the child list is non-empty). -/
inductive SeqAgent where
  | mk (identifier : String) (prompt : String) (agentType : String)
       (routes : Option (List String)) (dataPoints : Option (List SeqDataPoint))
       (emailConfig : Option EmailCfg) (children : Option (List SeqAgent))
deriving Repr

def SeqAgent.identifier : SeqAgent → String
  | .mk i _ _ _ _ _ _ => i

def SeqAgent.prompt : SeqAgent → String
  | .mk _ p _ _ _ _ _ => p

def SeqAgent.agentType : SeqAgent → String
  | .mk _ _ t _ _ _ _ => t

def SeqAgent.children : SeqAgent → Option (List SeqAgent)
  | .mk _ _ _ _ _ _ c => c

/-- `FlowTranslator._build_tree_from_edges`. -/
def build_tree_from_edges (nodes : List Node) (edges : List Edge) :
    Except PyErr (Dict (List String)) := do
  let keys ← nodes.mapM (fun n => pyKey n.id "id")
  let init : Dict (List String) := keys.foldl (fun d k => dictSet d k []) []
  edges.foldlM (fun d e =>
    if truthyS e.source ∧ truthyS e.target then do
      let s := e.source.getD ""
      let t := e.target.getD ""
      match dictGet? d s with
      | some cur => pure (dictSet d s (cur ++ [t]))
      | none => .error (.keyError s)
    else pure d) init

/-- `FlowTranslator._find_root_node`. -/
def find_root_node (edges : List Edge) (ids : List String) : Option String :=
  let targets := edges.filterMap (fun e => if truthyS e.target then e.target else none)
  ids.find? (fun i => !targets.contains i)

/-- `next((n for n in nodes if n["id"] == node_id), None)`: the generator may
raise a `KeyError` while scanning. -/
def findNodeById : List Node → String → Except PyErr (Option Node)
  | [], _ => .ok none
  | n :: ns, nid => do
    let i ← pyKey n.id "id"
    if i = nid then pure (some n) else findNodeById ns nid

/-- The child loop of `_convert_tree_to_sequential_agent`
(`enumerate(children_ids, 1)` with identifiers `f"{identifier}_{i}"`). -/
def convertKids (recurse : String → String → Except PyErr SeqAgent) (ident : String) :
    Nat → List String → Except PyErr (List SeqAgent)
  | _, [] => .ok []
  | i, c :: cs =>
    match recurse c (ident ++ "_" ++ natStr i) with
    | .error e => .error e
    | .ok child =>
      match convertKids recurse ident (i + 1) cs with
      | .error e => .error e
      | .ok rest => .ok (child :: rest)

/-- `FlowTranslator._convert_tree_to_sequential_agent` with recursion fuel. -/
def convert_tree (tree : Dict (List String)) (nodes : List Node) :
    Nat → String → String → Except PyErr SeqAgent
  | 0, _, _ => .error .recursionError
  | fuel + 1, nodeId, ident =>
    match findNodeById nodes nodeId with
    | .error e => .error e
    | .ok none => .error (.flowTranslationError ("Node " ++ nodeId ++ " not found"))
    | .ok (some node) =>
      let t := nodeTypeLower node
      let d := node.data
      let basePrompt := d.systemPrompt.getD "Process the user request"
      let agentType : String :=
        if t = "masteragent" then "router"
        else if t = "routingagent" then "router"
        else if t = "datacollectionagent" then "dataCollector"
        else if t = "mailagent" then "emailAgent"
        else "router"
      let prompt : String :=
        if t = "masteragent" then
          d.systemPrompt.getD "Welcome! I\x27ll help route your request appropriately."
        else basePrompt
      let routes : Option (List String) :=
        if t = "routingagent" then (if d.routes ≠ [] then some d.routes else none) else none
      let dps := d.schema.map (fun f => SeqDataPoint.mk (f.name.getD "Unknown Field") "")
      let dataPoints : Option (List SeqDataPoint) :=
        if t = "datacollectionagent" then (if dps ≠ [] then some dps else none) else none
      let emailConfig : Option EmailCfg :=
        if t = "mailagent" then
          some { subject := d.config.subject.getD "Message from Tzelem",
                 fromName := d.config.fromName.getD "Tzelem" }
        else none
      let childrenIds := (dictGet? tree nodeId).getD []
      if childrenIds ≠ [] then
        match convertKids (fun c cid => convert_tree tree nodes fuel c cid) ident 1 childrenIds with
        | .error e => .error e
        | .ok kids => .ok (.mk ident prompt agentType routes dataPoints emailConfig (some kids))
      else
        .ok (.mk ident prompt agentType routes dataPoints emailConfig none)

structure SeqConfig where
  startingAgent : SeqAgent
deriving Repr

/-- `FlowTranslator.translate_to_sequential`. -/
def translate_to_sequential (fuel : Nat) (nodes : List Node) (edges : List Edge) :
    Except PyErr SeqConfig := do
  let tree ← build_tree_from_edges nodes edges
  let ids ← nodes.mapM (fun n => pyKey n.id "id")
  let r0 := find_root_node edges ids
  let r1 ← if truthyS r0 then pure r0
    else match nodes with
      | [] => pure (none : Option String)
      | n :: _ => (pyKey n.id "id").map some
  if truthyS r1 then do
    let agent ← convert_tree tree nodes fuel (r1.getD "") "1"
    pure { startingAgent := agent }
  else
    .error (.flowTranslationError "Sequential flow requires at least one node")

/-! ### Top-level entry point -/

/-- A Python value in `paradigm` position (may fail to `.lower()`). -/
inductive PyStr where
  | str (s : String)
  | noneV
  | intV (n : Int)
deriving DecidableEq, Repr

def PyStr.lower : PyStr → Except PyErr String
  | .str s => .ok (pyLower s)
  | .noneV => .error (.attributeError "\x27NoneType\x27 object has no attribute \x27lower\x27")
  | .intV _ => .error (.attributeError "\x27int\x27 object has no attribute \x27lower\x27")

def PyStr.render : PyStr → String
  | .str s => s
  | .noneV => "None"
  | .intV n => toString n

inductive BackendConfig where
  | agentic (c : AgenticConfig)
  | sequential (c : SeqConfig)
deriving Repr

/-- The body of `translate_flow_to_backend`, before the `except` clause. -/
def translateDispatch (fuel : Nat) (paradigm : PyStr) (nodes : List Node)
    (edges : List Edge) : Except PyErr BackendConfig := do
  let p ← paradigm.lower
  if p = "agentic" then
    (translate_to_agentic fuel nodes edges).map .agentic
  else if p = "sequential" then
    (translate_to_sequential fuel nodes edges).map .sequential
  else
    .error (.flowTranslationError ("Unknown paradigm: " ++ paradigm.render))

/-- `translate_flow_to_backend`: any exception raised inside is re-raised as a
`FlowTranslationError` carrying the cause. -/
def translate_flow_to_backend (fuel : Nat) (paradigm : PyStr) (nodes : List Node)
    (edges : List Edge) : Except PyErr BackendConfig :=
  match translateDispatch fuel paradigm nodes edges with
  | .ok c => .ok c
  | .error e => .error (.flowTranslationError ("Translation failed: " ++ e.str))

/-! ### Reachability specification for the agentic traversal

`Reach edges a b` holds when `b` can be reached from `a` through one or more
edges whose source/target keys are present (a falsy target is skipped by the
traversal, so it does not count as an edge). -/

def ValidEdge (edges : List Edge) (a b : String) : Prop :=
  ∃ e ∈ edges, e.source = some a ∧ e.target = some b ∧ b ≠ ""

inductive Reach (edges : List Edge) : String → String → Prop
  | single {a b : String} : ValidEdge edges a b → Reach edges a b
  | head {a b c : String} : ValidEdge edges a b → Reach edges b c → Reach edges a c

/-- Does a node's `id` appear in the connected set (used to state what the
sub-agent loop keeps)? -/
def idConnected (connected : List String) (n : Node) : Bool :=
  match n.id with
  | some i => connected.contains i
  | none => false

/-! ## Sequential flow engine (`core/JSON_flow_agent_sequential.py`)

Configuration agents are JSON dictionaries with optional keys; the fields the
engine reads are embedded in `PFields`, and `children = none` models the
absence of the `"children"` key. -/

structure PFields where
  agentType : Option String := none
  prompt : Option String := none
  dataPoints : Option (List SeqDataPoint) := none
  identifier : Option String := none
deriving DecidableEq, Repr

inductive PAgent where
  | mk (fields : PFields) (children : Option (List PAgent))
deriving Repr

def PAgent.fields : PAgent → PFields
  | .mk f _ => f

def PAgent.children : PAgent → Option (List PAgent)
  | .mk _ c => c

/-! `process_agent` inside `add_identifiers_to_json`: copy the agent, stamp
`identifier`, and recursively stamp `"{identifier}_{i}"` (1-based) onto the
children when the `"children"` key is present. -/
mutual
def process_agent : PAgent → String → PAgent
  | .mk f none, ident => .mk { f with identifier := some ident } none
  | .mk f (some cs), ident => .mk { f with identifier := some ident } (some (processKids cs ident 1))

def processKids : List PAgent → String → Nat → List PAgent
  | [], _, _ => []
  | c :: cs, ident, i => process_agent c (ident ++ "_" ++ natStr i) :: processKids cs ident (i + 1)
end

structure SeqEngineConfig where
  paradigm : Option String := none
  startingAgent : Option PAgent := none
deriving Repr

/-- `add_identifiers_to_json`. -/
def add_identifiers_to_json (config : SeqEngineConfig) : SeqEngineConfig :=
  match config.startingAgent with
  | some a => { config with startingAgent := some (process_agent a "1") }
  | none => config

/-! `build_agent_lookup` flattens the stamped tree by identifier. -/
mutual
def build_agent_lookup : PAgent → Dict PAgent → Except PyErr (Dict PAgent)
  | .mk f cs, lookup =>
    match f.identifier with
    | none => .error (.keyError "identifier")
    | some ident =>
      let lookup' := dictSet lookup ident (.mk f cs)
      match cs with
      | none => .ok lookup'
      | some l => build_agent_lookup_kids l lookup'

def build_agent_lookup_kids : List PAgent → Dict PAgent → Except PyErr (Dict PAgent)
  | [], lookup => .ok lookup
  | c :: rest, lookup =>
    match build_agent_lookup c lookup with
    | .ok l' => build_agent_lookup_kids rest l'
    | .error e => .error e
end

/-- Conversation nodes as returned by the node constructors (the parts that
feed the voice pipeline, kept as plain data). -/
inductive SeqFn where
  | routeToNode
  | recordData
  | sendEmail
deriving DecidableEq, Repr

structure NodeCfg where
  name : String
  roleContent : String
  taskContent : String
  functions : List SeqFn
  endConv : Bool
deriving DecidableEq, Repr

/-- Shared session state of the sequential engine (`SequentialFlowData`). -/
structure SequentialFlowData where
  current_config : SeqEngineConfig
  flow_tree : Dict PAgent
  paradigm : String
  current_agent_id : String
  collected_data : Dict (Dict String)
  conv_current_agent_id : String
  conv_flow_active : Bool

/-- The all-collected test used by `record_data` and
`create_data_collector_node`: every declared point has a truthy recorded
value. -/
def allCollected (dps : List SeqDataPoint) (collected : Dict String) : Bool :=
  dps.all (fun p =>
    match dictGet? collected p.name with
    | some v => v ≠ ""
    | none => false)

/-- `create_data_collector_node`. -/
def create_data_collector_node (fd : SequentialFlowData) (agent : PAgent) :
    Except PyErr NodeCfg :=
  match agent.fields.identifier with
  | none => .error (.keyError "identifier")
  | some aid =>
    let prompt := agent.fields.prompt.getD "I need to collect some information from you."
    let dps := (agent.fields.dataPoints).getD []
    let children := (agent.children).getD []
    let collected := (dictGet? fd.collected_data aid).getD []
    let dataDesc := dps.map (fun p =>
      match dictGet? collected p.name with
      | some v => "- " ++ p.name ++ ": ✓ Collected (" ++ v ++ ")"
      | none => "- " ++ p.name ++ ": ○ Needed")
    let dataPointsStr := String.intercalate "," dataDesc
    let ac := allCollected dps collected
    let fns := if ac && !children.isEmpty then [SeqFn.recordData, SeqFn.routeToNode]
      else [SeqFn.recordData]
    .ok { name := "data_collector_" ++ aid,
          roleContent :=
            "You are a Data Collector Agent (ID: " ++ aid ++ ") in a sequential flow. " ++
            "Your job is to collect specific data points from the user. " ++
            "Use the recordData function to store each piece of information. " ++
            (if !children.isEmpty then
              "Once all data is collected, you can use routeToNode to move to the next agent."
             else ""),
          taskContent :=
            prompt ++ "\n\nData points to collect:\n" ++ dataPointsStr ++ "\n\n" ++
            (if ac then "All data collected! You can now route to the next step."
             else "Please collect the missing information."),
          functions := fns,
          endConv := false }

structure DataCollectionResult where
  agent_id : Option String := none
  data_collected : Option (Dict String) := none
  all_data_collected : Option Bool := none
  status : Option String := none
deriving Repr

/-- The session-state mutation of `record_data`: store the value under the
current agent and the data-point name, creating the per-agent dictionary on
first use. -/
def record_data_post (fd : SequentialFlowData) (data_name data_value : String) :
    SequentialFlowData :=
  let aid := fd.current_agent_id
  let cd0 := match dictGet? fd.collected_data aid with
    | none => dictSet fd.collected_data aid []
    | some _ => fd.collected_data
  let inner := (dictGet? cd0 aid).getD []
  { fd with collected_data := dictSet cd0 aid (dictSet inner data_name data_value) }

/-- `record_data`: perform the state mutation, recompute the all-collected
flag, and re-render the same data-collector node.  The mutation persists even
when the flow-tree lookup then raises. -/
def record_data (fd : SequentialFlowData) (data_name data_value : String) :
    Except PyErr (DataCollectionResult × NodeCfg) × SequentialFlowData :=
  let fd1 := record_data_post fd data_name data_value
  let aid := fd.current_agent_id
  match dictGet? fd1.flow_tree aid with
  | none => (.error (.keyError aid), fd1)
  | some agent =>
    let dps := (agent.fields.dataPoints).getD []
    let collected := (dictGet? fd1.collected_data aid).getD []
    let ac := allCollected dps collected
    let result : DataCollectionResult :=
      { agent_id := some aid, data_collected := some collected,
        all_data_collected := some ac, status := some "success" }
    match create_data_collector_node fd1 agent with
    | .ok node => (.ok (result, node), fd1)
    | .error e => (.error e, fd1)

/-- The per-agent dictionary of recorded values for the current agent. -/
def collectedFor (fd : SequentialFlowData) : Dict String :=
  (dictGet? fd.collected_data fd.current_agent_id).getD []

/-- The effect of a call list on one recorded-values dictionary. -/
def recordFold (m : Dict String) (calls : List (String × String)) : Dict String :=
  calls.foldl (fun m c => dictSet m c.1 c.2) m

/-- A sequence of `recordData` calls, threading the session state. -/
def applyRecords (fd : SequentialFlowData) : List (String × String) → SequentialFlowData
  | [] => fd
  | (n, v) :: rest => applyRecords (record_data fd n v).2 rest

/-! ### Identifier-shape specification shared by both stampers

`IdTree` forgets everything except identifiers and child order; both the
translator output and the engine-stamped configuration project onto it. -/

inductive IdTree where
  | mk (ident : String) (children : List IdTree)
deriving Repr

def IdTree.ident : IdTree → String
  | .mk i _ => i

def IdTree.childrenOf : IdTree → List IdTree
  | .mk _ c => c

/-- 1-based child access. -/
def IdTree.childAt (t : IdTree) (i : Nat) : Option IdTree :=
  if i = 0 then none else t.childrenOf.get? (i - 1)

/-- Subtree at a path of 1-based child indices. -/
def IdTree.get : List Nat → IdTree → Option IdTree
  | [], t => some t
  | i :: p, t =>
    match t.childAt i with
    | none => none
    | some c => IdTree.get p c

mutual
def IdTree.idents : IdTree → List String
  | .mk i cs => i :: IdTree.identsKids cs

def IdTree.identsKids : List IdTree → List String
  | [] => []
  | c :: cs => IdTree.idents c ++ IdTree.identsKids cs
end

mutual
def IdTree.paths : IdTree → List (List Nat)
  | .mk _ cs => [] :: IdTree.pathsKids cs 1

def IdTree.pathsKids : List IdTree → Nat → List (List Nat)
  | [], _ => []
  | c :: cs, i => (IdTree.paths c).map (fun p => i :: p) ++ IdTree.pathsKids cs (i + 1)
end

/-! The identifier discipline: the root carries `base` and the i-th child of a
node carrying `X` carries `X ++ "_" ++ str(i)`. -/
mutual
def IdTree.spec : IdTree → String → Prop
  | .mk i cs, base => i = base ∧ IdTree.kidsSpec cs base 1

def IdTree.kidsSpec : List IdTree → String → Nat → Prop
  | [], _, _ => True
  | c :: cs, base, i => IdTree.spec c (base ++ "_" ++ natStr i) ∧ IdTree.kidsSpec cs base (i + 1)
end

mutual
def SeqAgent.idTree : SeqAgent → IdTree
  | .mk i _ _ _ _ _ none => .mk i []
  | .mk i _ _ _ _ _ (some cs) => .mk i (seqIdTreeKids cs)

def seqIdTreeKids : List SeqAgent → List IdTree
  | [] => []
  | c :: cs => SeqAgent.idTree c :: seqIdTreeKids cs
end

mutual
def PAgent.idTree : PAgent → IdTree
  | .mk f none => .mk (f.identifier.getD "") []
  | .mk f (some cs) => .mk (f.identifier.getD "") (pIdTreeKids cs)

def pIdTreeKids : List PAgent → List IdTree
  | [] => []
  | c :: cs => PAgent.idTree c :: pIdTreeKids cs
end


/-! ## Agentic flow engine (`core/JSON_flow_agent.py`) -/

/-- One sub-agent dictionary as loaded by the Agentic engine. -/
structure AgSubAgent where
  type : Option String := none
  prompt : Option String := none
  url : Option String := none
deriving DecidableEq, Repr

structure AgEngineConfig where
  paradigm : Option PyStr := none
  subAgents : Option (List AgSubAgent) := none
deriving DecidableEq, Repr

/-- The process-wide `JSONFlowData` singleton. -/
structure JSONFlowDataState where
  current_config : AgEngineConfig
  sub_agents : List AgSubAgent
  paradigm : PyStr
deriving DecidableEq, Repr

/-- The sub-agent validation loop of `JSONFlowAgent.load_configuration`
(`enumerate` is 0-based); returns the first validation error. -/
def validateSubAgents : Nat → List AgSubAgent → Option PyErr
  | _, [] => none
  | i, a :: rest =>
    match a.type with
    | none => some (.valueError ("Sub-agent " ++ natStr i ++ " missing \x27type\x27 field"))
    | some t =>
      if t ≠ "browser-agent" ∧ t ≠ "mail-agent" then
        some (.valueError ("Sub-agent " ++ natStr i ++ " has invalid type: " ++ t))
      else
        match a.prompt with
        | none => some (.valueError ("Sub-agent " ++ natStr i ++ " missing \x27prompt\x27 field"))
        | some _ => validateSubAgents (i + 1) rest

/-- `JSONFlowAgent.load_configuration`: the shared state is replaced *before*
the sub-agent validation loop runs, so a raised validation error leaves the
rejected configuration in place (the second component is the state as mutated
up to the raise). -/
def load_configuration (st : JSONFlowDataState) (config : AgEngineConfig) :
    Option PyErr × JSONFlowDataState :=
  match config.paradigm with
  | none => (some (.valueError "JSON configuration must include \x27paradigm\x27 field"), st)
  | some p =>
    let st1 : JSONFlowDataState := { st with current_config := config, paradigm := p }
    match config.subAgents with
    | some sas =>
      let st2 : JSONFlowDataState := { st1 with sub_agents := sas }
      (validateSubAgents 0 sas, st2)
    | none => (none, st1)

/-- A Python value that is either a bool or a string (the `status` field of a
`BrowserResult` holds `"error"` on a type mismatch and the automation success
flag otherwise). -/
inductive PyStatus where
  | b (v : Bool)
  | s (v : String)
deriving DecidableEq, Repr

structure BrowserResult where
  agent_id : Option Int := none
  agent_type : Option String := none
  prompt : Option String := none
  url : Option String := none
  status : Option PyStatus := none
  run_result : Option String := none
  actions_completed : Option (List String) := none
deriving DecidableEq, Repr

structure AgMailResult where
  agent_id : Int
  agent_type : String
  prompt : String
  status : String
deriving DecidableEq, Repr

/-- Conversation nodes of the Agentic engine, by tag (`None` = stay on the
current node). -/
inductive ANode where
  | master
  | endNode
deriving DecidableEq, Repr

structure FMEntry where
  executed : Bool
  agent : AgSubAgent
  timestamp : Nat
deriving DecidableEq, Repr

/-- Outcome of the external browser automation (an oracle: the remote session
either yields a history, raises a "browser is closed"/"disconnected" error that
the handler reclassifies as success, raises some other error that propagates,
or the session creation itself fails). -/
inductive BrowserRunOutcome where
  | history (isSuccessful : Bool) (finalResult : String) (actions : List String)
  | disconnect (msg : String)
  | failure (msg : String)
  | createError (msg : String)
deriving DecidableEq, Repr

structure BrowserEnv where
  browserUseAvailable : Bool
  outcome : BrowserRunOutcome
deriving DecidableEq, Repr

/-- `browser_function` returns `(result, next_node)`; on the
dependencies-unavailable path the Python code returns a bare result instead of
a pair. -/
inductive BrowserRet where
  | pair (r : BrowserResult) (next : Option ANode)
  | bare (r : BrowserResult)
deriving DecidableEq, Repr

structure BrowserCallOut where
  ret : Except PyErr BrowserRet
  state : Dict FMEntry
  sessionsCreated : Nat
deriving Repr

/-- `browser_function`: bounds check, type check, then the remote-browser run
(under the oracle); only the success path writes flow-manager state. -/
def browser_function (agentId : Int) (d : JSONFlowDataState) (fm : Dict FMEntry)
    (env : BrowserEnv) (now : Nat) : BrowserCallOut :=
  if agentId < 0 ∨ (d.sub_agents.length : Int) ≤ agentId then
    { ret := .ok (.pair { prompt := some "Invalid agent ID" } none),
      state := fm, sessionsCreated := 0 }
  else
    match d.sub_agents.get? agentId.toNat with
    | none => { ret := .error .indexError, state := fm, sessionsCreated := 0 }
    | some agent =>
      if agent.type ≠ some "browser-agent" then
        { ret := .ok (.pair
            { agent_id := some agentId,
              agent_type := some (agent.type.getD "unknown"),
              prompt := some (agent.prompt.getD ""),
              url := some (agent.url.getD ""),
              status := some (.s "error") } none),
          state := fm, sessionsCreated := 0 }
      else
        match env.outcome with
        | .createError msg =>
          { ret := .error (.runtimeError msg), state := fm, sessionsCreated := 0 }
        | .failure msg =>
          { ret := .error (.runtimeError msg), state := fm, sessionsCreated := 1 }
        | .history ok res acts =>
          if ¬ env.browserUseAvailable then
            { ret := .ok (.bare
                { agent_id := none, agent_type := some "browser",
                  prompt := agent.prompt, status := some (.b false),
                  run_result := some "Browser-use dependencies not available in this environment" }),
              state := fm, sessionsCreated := 1 }
          else
            { ret := .ok (.pair
                { agent_id := some agentId, agent_type := some "browser-agent",
                  prompt := some (agent.prompt.getD ""), status := some (.b ok),
                  run_result := some res, actions_completed := some acts } none),
              state := dictSet fm ("browser_agent_" ++ toString agentId ++ "_result")
                { executed := true, agent := agent, timestamp := now },
              sessionsCreated := 1 }
        | .disconnect _ =>
          if ¬ env.browserUseAvailable then
            { ret := .ok (.bare
                { agent_id := none, agent_type := some "browser",
                  prompt := agent.prompt, status := some (.b false),
                  run_result := some "Browser-use dependencies not available in this environment" }),
              state := fm, sessionsCreated := 1 }
          else
            { ret := .ok (.pair
                { agent_id := some agentId, agent_type := some "browser-agent",
                  prompt := some (agent.prompt.getD ""), status := some (.b true),
                  run_result := some "Task completed successfully (session ended normally)",
                  actions_completed := some [] } none),
              state := dictSet fm ("browser_agent_" ++ toString agentId ++ "_result")
                { executed := true, agent := agent, timestamp := now },
              sessionsCreated := 1 }

structure MailCallOut where
  ret : Except PyErr (AgMailResult × Option ANode)
  state : Dict FMEntry
deriving Repr

/-- `mail_function`: bounds check, type check, then an unconditional
"completed" result returning to the master node. -/
def mail_function (agentId : Int) (d : JSONFlowDataState) (fm : Dict FMEntry)
    (now : Nat) : MailCallOut :=
  if agentId < 0 ∨ (d.sub_agents.length : Int) ≤ agentId then
    { ret := .ok ({ agent_id := agentId, agent_type := "mail-agent",
                    prompt := "Invalid agent ID", status := "error" }, none),
      state := fm }
  else
    match d.sub_agents.get? agentId.toNat with
    | none => { ret := .error .indexError, state := fm }
    | some agent =>
      if agent.type ≠ some "mail-agent" then
        { ret := .ok ({ agent_id := agentId,
                        agent_type := agent.type.getD "unknown",
                        prompt := agent.prompt.getD "", status := "error" }, none),
          state := fm }
      else
        { ret := .ok ({ agent_id := agentId, agent_type := "mail-agent",
                        prompt := agent.prompt.getD "", status := "completed" }, some .master),
          state := dictSet fm ("mail_agent_" ++ toString agentId ++ "_result")
            { executed := true, agent := agent, timestamp := now } }

/-! ## Mail API (`api/mail.py`) -/

structure MailRequest where
  toAddr : String
  subject : String
  html : Option String := none
  text : Option String := none
  from_name : Option String := none
deriving DecidableEq, Repr

structure HTTPExc where
  status : Nat
  detail : String
deriving DecidableEq, Repr

structure MailApiResponse where
  messageId : Option String
  status : String
  message : String
deriving DecidableEq, Repr

/-- The keyword arguments of the one provider invocation
`client.inboxes.messages.send(...)`. -/
structure ProviderSendCall where
  inbox_id : String
  toAddr : String
  subject : String
  html : Option String
  text : Option String
deriving DecidableEq, Repr

/-- Environment of one `send_mail` call: client presence, `DEBUG`,
`AGENTMAIL_INBOX_ID`, the (salted, process-specific) `hash` rendering, and the
provider endpoints as oracles. -/
structure MailEnv where
  clientConfigured : Bool
  debugEnv : Bool
  inboxEnv : Option String
  hashStr : String
  createInbox : Except String String
  providerSend : ProviderSendCall → Except String (Option String)

/-- `send_mail`; the second component lists the provider send invocations that
occurred. -/
def send_mail (md : MailRequest) (env : MailEnv) :
    Except HTTPExc MailApiResponse × List ProviderSendCall :=
  if ¬ env.clientConfigured then
    if env.debugEnv then
      (.ok { messageId := some ("mock-" ++ env.hashStr), status := "mocked",
             message := "Email mocked in development mode" }, [])
    else
      (.error ⟨503, "Mail service not available - check AGENTMAIL_API_KEY and installation"⟩, [])
  else
    if ¬ truthyS md.html ∧ ¬ truthyS md.text then
      (.error ⟨400, "Either html or text content must be provided"⟩, [])
    else
      let inboxRes : Except HTTPExc String :=
        if truthyS env.inboxEnv then .ok (env.inboxEnv.getD "")
        else
          match env.createInbox with
          | .ok ib => .ok ib
          | .error e => .error ⟨500, "Failed to create mail inbox: " ++ e⟩
      match inboxRes with
      | .error he => (.error he, [])
      | .ok inbox =>
        let call : ProviderSendCall :=
          { inbox_id := inbox, toAddr := md.toAddr, subject := md.subject,
            html := md.html, text := md.text }
        match env.providerSend call with
        | .ok mid => (.ok { messageId := mid, status := "queued",
                            message := "Email sent successfully" }, [call])
        | .error e => (.error ⟨500, "Failed to send mail: " ++ e⟩, [call])

/-! ## Runs API (`api/runs.py`) -/

structure Event where
  type : String
  timestamp : String
  runId : String
  payload : Dict String
deriving DecidableEq, Repr

structure RunInfo where
  id : String
  status : String
  flowId : Option String
  voiceEnabled : Bool
  room : Option String
  token : Option String
  startedAt : String
  agentConfig : BackendConfig
  paradigm : PyStr
  events : List Event

/-- The module-level registries (`active_runs`, `run_events`) plus the run ids
handed to `asyncio.create_task`. -/
structure RunsState where
  active_runs : Dict RunInfo
  run_events : Dict (List Event)
  scheduled : List String

/-- `add_run_event`: appends the event to `run_events[run_id]` (creating the
list if missing) and mirrors it into `active_runs[run_id]["events"]` when the
run is registered. -/
def add_run_event (st : RunsState) (runId eventType : String) (payload : Dict String)
    (now : String) : RunsState :=
  let ev : Event := { type := eventType, timestamp := now, runId := runId, payload := payload }
  let re0 := if (dictGet? st.run_events runId).isSome then st.run_events
    else dictSet st.run_events runId []
  let re1 := dictSet re0 runId (((dictGet? re0 runId).getD []) ++ [ev])
  let ar1 := match dictGet? st.active_runs runId with
    | some info => dictSet st.active_runs runId { info with events := info.events ++ [ev] }
    | none => st.active_runs
  { st with run_events := re1, active_runs := ar1 }

/-- A sequence of `add_run_event` calls. -/
def applyRunEvents (st : RunsState) : List (String × String × Dict String × String) → RunsState
  | [] => st
  | (rid, ty, pl, now) :: rest => applyRunEvents (add_run_event st rid ty pl now) rest

structure FlowData where
  paradigm : Option PyStr := none
  nodes : List Node := []
  edges : List Edge := []
  voiceEnabled : Bool := false

structure RunStartRequest where
  flowId : Option String := none
  flow : Option FlowData := none

structure VoiceInfo where
  room : String
  token : String
deriving DecidableEq, Repr

structure RunStartResponse where
  runId : String
  voice : VoiceInfo
deriving DecidableEq, Repr

/-- Python `x or default` on an optional string. -/
def pyOr (o : Option String) (dflt : String) : String :=
  if truthyS o then o.getD "" else dflt

/-- `start_run`: validation, translation, optional room provisioning, then the
registry insert and the background-task schedule; second component is the
registry state after the call (unchanged on every error path, which all raise
before the insert). -/
def start_run (st : RunsState) (req : RunStartRequest) (runId now : String) (fuel : Nat)
    (roomOracle : Except String (String × Option String)) :
    Except HTTPExc RunStartResponse × RunsState :=
  if ¬ truthyS req.flowId ∧ req.flow.isNone then
    (.error ⟨400, "Either flowId or flow JSON must be provided"⟩, st)
  else
    match req.flow with
    | none =>
      (.error ⟨400, "Flow lookup by ID not yet implemented. Please provide flow JSON directly."⟩, st)
    | some flowData =>
      let paradigm := flowData.paradigm.getD (.str "Agentic")
      match translate_flow_to_backend fuel paradigm flowData.nodes flowData.edges with
      | .error e => (.error ⟨400, "Invalid flow structure: " ++ e.str⟩, st)
      | .ok agentConfig =>
        let roomRes : Except HTTPExc (Option String × Option String) :=
          if flowData.voiceEnabled then
            match roomOracle with
            | .ok (r, t) => .ok (some r, t)
            | .error _ => .error ⟨500, "Failed to create voice room"⟩
          else .ok (none, none)
        match roomRes with
        | .error he => (.error he, st)
        | .ok (room, token) =>
          let info : RunInfo :=
            { id := runId, status := "starting", flowId := req.flowId,
              voiceEnabled := flowData.voiceEnabled, room := room, token := token,
              startedAt := now, agentConfig := agentConfig, paradigm := paradigm,
              events := [] }
          let st1 : RunsState :=
            { active_runs := dictSet st.active_runs runId info,
              run_events := dictSet st.run_events runId [],
              scheduled := st.scheduled ++ [runId] }
          (.ok { runId := runId,
                 voice := { room := pyOr room "https://daily.co/room-headless",
                            token := pyOr token "headless-mode" } }, st1)

/-! ### SSE event stream (`generate_sse_events`)

The generator is modelled against a quiescent registry: the scenario of
interest is a run whose background task has already finished (its event list
ends with a terminal event and nothing appends to it or removes the run), so
the recorded event list and registry membership are constants of the stream.
Fuel counts polling iterations; `false` in the second component means the
generator is still polling when the fuel runs out, `true` means it returned
(the stream closed). -/

inductive SSEFrame where
  | dataFrame (e : Event)
  | errorFrame (msg : String)
deriving DecidableEq, Repr

def isTerminalEvent (e : Event) : Bool :=
  e.type = "run_completed" || e.type = "run_failed"

/-- The inner `for` over newly seen events: emit each, returning early after a
terminal event. -/
def emitBatch : List Event → List SSEFrame × Bool
  | [] => ([], false)
  | e :: es =>
    if isTerminalEvent e then ([.dataFrame e], true)
    else
      let (fs, t) := emitBatch es
      (SSEFrame.dataFrame e :: fs, t)

/-- The `while True` polling loop, starting from `sent_count = sent`. -/
def sse_poll (events : List Event) (inRegistry : Bool) : Nat → Nat → List SSEFrame × Bool
  | 0, _ => ([], false)
  | fuel + 1, sent =>
    let batch := events.drop sent
    let (fs, t) := emitBatch batch
    if t then (fs, true)
    else if ¬ inRegistry then (fs, true)
    else
      let (fs', t') := sse_poll events inRegistry fuel (sent + batch.length)
      (fs ++ fs', t')

/-- `generate_sse_events` under a quiescent registry: the unknown-run check,
the unconditional replay of all recorded events (with no terminal check), then
the polling loop. -/
def generate_sse_events (runId : String) (inRegistry : Bool) (events : List Event)
    (fuel : Nat) : List SSEFrame × Bool :=
  if ¬ inRegistry then ([.errorFrame ("Run " ++ runId ++ " not found")], true)
  else
    let replay := events.map SSEFrame.dataFrame
    let (fs, t) := sse_poll events inRegistry fuel events.length
    (replay ++ fs, t)

/-- Following the claim's wording (a refinement reading, for comparison with
the code): sub-agents listed in the order nodes were discovered during the
reachability traversal (`find_connected_nodes` accumulates targets in exactly
that discovery order). -/
def agenticSubAgentsDiscoveryOrder (fuel : Nat) (nodes : List Node) (edges : List Edge) :
    Option (List SubAgent) :=
  match (nodes.filter (fun n => nodeTypeLower n = "masteragent")).getLast? with
  | none => none
  | some m =>
    match m.id with
    | none => none
    | some mid =>
      match find_connected_nodes edges fuel mid with
      | .error _ => none
      | .ok connected =>
        some (connected.filterMap (fun cid =>
          match nodes.find? (fun n => n.id = some cid) with
          | some n => if isExecType n then convert_node_to_sub_agent n else none
          | none => none))

/-- The identifier properties claimed for both stampers: root `"1"`, the i-th
(1-based) child of a node with identifier `X` carries `"X_i"`, identifiers are
a function of the tree position alone (hence deterministic), and all
identifiers are pairwise distinct. -/
def IdentDiscipline (t : IdTree) : Prop :=
  t.ident = "1" ∧
  (∀ (p : List Nat) (sub : IdTree) (i : Nat) (c : IdTree),
    IdTree.get p t = some sub → IdTree.childAt sub i = some c →
    c.ident = sub.ident ++ "_" ++ natStr i) ∧
  IdTree.idents t = (IdTree.paths t).map (extendIdent "1") ∧
  (IdTree.idents t).Nodup

/-- The two event stores of one run agree: the run is registered and its
`run_events` list is element-for-element the `events` list inside its registry
record. -/
def runEventsMirror (st : RunsState) (rid : String) : Prop :=
  ∃ info, dictGet? st.active_runs rid = some info ∧
    dictGet? st.run_events rid = some info.events

/-! ## Lemmas and claim theorems -/

theorem natCharsAux_stable : ∀ (n fuel : Nat), n < fuel → natCharsAux fuel n = natChars n := by
  intro n
  induction n using Nat.strong_induction_on with
  | _ n ih =>
    intro fuel hn
    match fuel with
    | 0 => omega
    | f + 1 =>
      by_cases h10 : n < 10
      · rw [natCharsAux, if_pos h10, natChars, natCharsAux, if_pos h10]
      · have hdiv : n / 10 < n := Nat.div_lt_self (by omega) (by omega)
        rw [natCharsAux, if_neg h10]
        rw [ih (n / 10) hdiv f (by omega)]
        conv_rhs => rw [natChars, natCharsAux, if_neg h10]
        rw [ih (n / 10) hdiv n (by omega)]

/-- The recursion equation of `natChars` (the fuel in `natCharsAux` always
suffices). -/
theorem natChars_unfold (n : Nat) :
    natChars n = if n < 10 then [digitChar n] else natChars (n / 10) ++ [digitChar (n % 10)] := by
  rw [natChars, natCharsAux]
  by_cases h10 : n < 10
  · rw [if_pos h10, if_pos h10]
  · rw [if_neg h10, if_neg h10]
    have hdiv : n / 10 < n := Nat.div_lt_self (by omega) (by omega)
    rw [natCharsAux_stable (n / 10) n (by omega)]

@[simp] theorem dictGet?_nil (k : String) : dictGet? ([] : Dict V) k = none := rfl

@[simp] theorem extendIdent_nil (base : String) : extendIdent base [] = base := rfl


theorem dictGet?_set_self (d : Dict V) (k : String) (v : V) :
    dictGet? (dictSet d k v) k = some v := by
  induction d with
  | nil => simp [dictSet, dictGet?]
  | cons h t ih =>
    obtain ⟨k', v'⟩ := h
    by_cases hk : k' = k
    · simp [dictSet, dictGet?, hk]
    · simp [dictSet, dictGet?, hk, ih]

theorem dictGet?_set_ne (d : Dict V) (k k' : String) (v : V) (h : k ≠ k') :
    dictGet? (dictSet d k v) k' = dictGet? d k' := by
  induction d with
  | nil => simp [dictSet, dictGet?, fun hh => h hh]
  | cons hd t ih =>
    obtain ⟨k₀, v₀⟩ := hd
    by_cases hk : k₀ = k
    · subst hk
      simp [dictSet, dictGet?, h]
    · simp [dictSet, dictGet?, hk, ih]

theorem dictKeys_set_of_mem (d : Dict V) (k : String) (v : V)
    (h : (dictGet? d k).isSome) : dictKeys (dictSet d k v) = dictKeys d := by
  induction d with
  | nil => simp [dictGet?] at h
  | cons hd t ih =>
    obtain ⟨k₀, v₀⟩ := hd
    by_cases hk : k₀ = k
    · simp [dictSet, hk, dictKeys]
    · simp [dictGet?, hk] at h
      simp [dictSet, hk, dictKeys] at ih ⊢
      exact ih h

theorem natChars_ne_nil (n : Nat) : natChars n ≠ [] := by
  rw [natChars_unfold]
  split <;> simp

/-- Digits of a decimal rendering are actual digit characters. -/
theorem natChars_mem_digit (n : Nat) : ∀ c ∈ natChars n, ∃ d, d < 10 ∧ c = digitChar d := by
  induction n using Nat.strong_induction_on with
  | _ n ih =>
    rw [natChars_unfold]
    split
    · intro c hc
      simp at hc
      exact ⟨n, by omega, hc⟩
    · intro c hc
      rw [List.mem_append] at hc
      rcases hc with hc | hc
      · exact ih (n / 10) (Nat.div_lt_self (by omega) (by omega)) c hc
      · simp at hc
        exact ⟨n % 10, Nat.mod_lt _ (by omega), hc⟩

theorem digitChar_ne_underscore (d : Nat) : digitChar d ≠ '_' := by
  unfold digitChar
  split <;> try decide
  split <;> try decide
  split <;> try decide
  split <;> try decide
  split <;> try decide
  split <;> try decide
  split <;> try decide
  split <;> try decide
  split <;> decide

theorem underscore_not_mem_natChars (n : Nat) : '_' ∉ natChars n := by
  intro h
  obtain ⟨d, _, he⟩ := natChars_mem_digit n '_' h
  exact digitChar_ne_underscore d he.symm

theorem digitsVal_append_single (l : List Char) (c : Char) :
    digitsVal (l ++ [c]) = 10 * digitsVal l + (c.toNat - 48) := by
  simp [digitsVal, List.foldl_append]

theorem digitChar_toNat (d : Nat) (hd : d < 10) : (digitChar d).toNat = 48 + d := by
  interval_cases d <;> decide

theorem digitsVal_natChars (n : Nat) : digitsVal (natChars n) = n := by
  induction n using Nat.strong_induction_on with
  | _ n ih =>
    rw [natChars_unfold]
    split
    · simp [digitsVal, digitChar_toNat n (by omega)]
    · rw [digitsVal_append_single, ih (n / 10) (Nat.div_lt_self (by omega) (by omega)),
        digitChar_toNat (n % 10) (Nat.mod_lt _ (by omega))]
      omega

theorem natChars_injective : Function.Injective natChars := by
  intro a b h
  have := digitsVal_natChars a
  rw [h, digitsVal_natChars] at this
  omega

theorem natStr_injective : Function.Injective natStr := by
  intro a b h
  exact natChars_injective (congrArg String.data h)

theorem underscore_not_mem_natStr_data (n : Nat) : '_' ∉ (natStr n).data :=
  underscore_not_mem_natChars n

theorem extendIdent_cons (base : String) (i : Nat) (p : List Nat) :
    extendIdent base (i :: p) = extendIdent (base ++ "_" ++ natStr i) p := rfl

theorem extendIdent_append_single (base : String) (p : List Nat) (i : Nat) :
    extendIdent base (p ++ [i]) = extendIdent base p ++ "_" ++ natStr i := by
  simp [extendIdent, List.foldl_append]

/-- Unique decodability of `_`-separated blocks, stated on the prefix side. -/
theorem underscore_block_cancel_pre (x : List Char) :
    ∀ (y a b : List Char), '_' ∉ x → '_' ∉ y →
      x ++ '_' :: a = y ++ '_' :: b → x = y ∧ a = b := by
  induction x with
  | nil =>
    intro y a b _ hy he
    cases y with
    | nil => simpa using he
    | cons c y' =>
      rw [List.nil_append, List.cons_append] at he
      injection he with h1 _
      exact ((hy (by rw [h1]; exact List.mem_cons_self c y')).elim)
  | cons c x' ih =>
    intro y a b hx hy he
    cases y with
    | nil =>
      rw [List.nil_append, List.cons_append] at he
      injection he with h1 _
      exact ((hx (by rw [← h1]; exact List.mem_cons_self c x')).elim)
    | cons d y' =>
      rw [List.cons_append, List.cons_append] at he
      injection he with h1 h2
      subst h1
      have := ih y' a b (fun h => hx (List.mem_cons_of_mem _ h))
        (fun h => hy (List.mem_cons_of_mem _ h)) h2
      exact ⟨by rw [this.1], this.2⟩

/-- Unique decodability of `_`-separated blocks, suffix side: if two strings of
blocks agree and the final blocks are underscore-free, the stems and the final
blocks agree. -/
theorem underscore_block_cancel (a b x y : List Char)
    (hx : '_' ∉ x) (hy : '_' ∉ y)
    (h : a ++ '_' :: x = b ++ '_' :: y) : a = b ∧ x = y := by
  have hrev : x.reverse ++ '_' :: a.reverse = y.reverse ++ '_' :: b.reverse := by
    have := congrArg List.reverse h
    simpa [List.reverse_append] using this
  have := underscore_block_cancel_pre x.reverse y.reverse a.reverse b.reverse
    (by simpa using hx) (by simpa using hy) hrev
  exact ⟨List.reverse_injective (this.2), List.reverse_injective (this.1)⟩

theorem extendIdent_one_eq_identRev (p : List Nat) :
    extendIdent "1" p = identRev p.reverse := by
  induction p using List.reverseRecOn with
  | nil => rfl
  | append_singleton p i ih =>
    rw [extendIdent_append_single, ih]
    simp [identRev]

theorem identRev_data (r : List Nat) (i : Nat) :
    (identRev (i :: r)).data = (identRev r).data ++ '_' :: (natStr i).data := by
  simp [identRev, String.data_append, natStr]

theorem identRev_ne_nil (r : List Nat) : (identRev r).data ≠ [] := by
  cases r with
  | nil => decide
  | cons i r' => rw [identRev_data]; simp

theorem identRev_injective : Function.Injective identRev := by
  intro p q h
  induction p generalizing q with
  | nil =>
    cases q with
    | nil => rfl
    | cons j q' =>
      have hd := congrArg String.data h
      rw [identRev_data] at hd
      have hone : (identRev []).data = ['1'] := rfl
      rw [hone] at hd
      have hlen := congrArg List.length hd
      have hsing : (['1'] : List Char).length = 1 := rfl
      rw [hsing, List.length_append, List.length_cons] at hlen
      have h2 : 1 ≤ (natStr j).data.length :=
        List.length_pos.mpr (natChars_ne_nil j)
      have h3 : 1 ≤ (identRev q').data.length :=
        List.length_pos.mpr (identRev_ne_nil q')
      exfalso
      omega
  | cons i p' ih =>
    cases q with
    | nil =>
      have hd := congrArg String.data h
      rw [identRev_data] at hd
      have hone : (identRev []).data = ['1'] := rfl
      rw [hone] at hd
      have hlen := congrArg List.length hd
      have hsing : (['1'] : List Char).length = 1 := rfl
      rw [hsing, List.length_append, List.length_cons] at hlen
      have h2 : 1 ≤ (natStr i).data.length :=
        List.length_pos.mpr (natChars_ne_nil i)
      have h3 : 1 ≤ (identRev p').data.length :=
        List.length_pos.mpr (identRev_ne_nil p')
      exfalso
      omega
    | cons j q' =>
      have hd := congrArg String.data h
      rw [identRev_data, identRev_data] at hd
      have := underscore_block_cancel _ _ _ _
        (underscore_not_mem_natStr_data i) (underscore_not_mem_natStr_data j) hd
      have hij : i = j := natStr_injective (by
        apply String.ext
        exact this.2)
      have hpq : p' = q' := ih (String.ext this.1)
      rw [hij, hpq]

theorem extendIdent_one_injective : Function.Injective (extendIdent "1") := by
  intro p q h
  rw [extendIdent_one_eq_identRev, extendIdent_one_eq_identRev] at h
  have := identRev_injective h
  exact List.reverse_injective this

theorem mem_setAdd {s : List String} {x y : String} :
    y ∈ setAdd s x ↔ y ∈ s ∨ y = x := by
  unfold setAdd
  split
  · next h => constructor
              · exact fun hy => Or.inl hy
              · rintro (hy | rfl)
                · exact hy
                · exact h
  · simp

theorem mem_setUnion {s t : List String} {y : String} :
    y ∈ setUnion s t ↔ y ∈ s ∨ y ∈ t := by
  induction t generalizing s with
  | nil => simp [setUnion]
  | cons a t ih =>
    simp only [setUnion, List.foldl_cons] at *
    rw [ih]
    rw [mem_setAdd]
    simp only [List.mem_cons]
    tauto

theorem foldl_fcnStep_error (r : String → Except PyErr (List String)) (mid : String)
    (l : List Edge) (er : PyErr) :
    l.foldl (fcnStep r mid) (.error er) = .error er := by
  induction l with
  | nil => rfl
  | cons e t ih => simpa [fcnStep] using ih

/-- The edge fold only grows the accumulated set. -/
theorem foldl_fcnStep_grow (r : String → Except PyErr (List String)) (mid : String)
    (l : List Edge) :
    ∀ (acc s : List String), l.foldl (fcnStep r mid) (.ok acc) = .ok s →
      ∀ x ∈ acc, x ∈ s := by
  induction l with
  | nil =>
    intro acc s h x hx
    simp at h
    exact h ▸ hx
  | cons e t ih =>
    intro acc s h x hx
    rw [List.foldl_cons] at h
    by_cases hs : e.source = some mid
    · match he : e.target with
      | some tg =>
        by_cases htg : tg = ""
        · rw [show fcnStep r mid (.ok acc) e = .ok acc by
            simp [fcnStep, hs, he, htg]] at h
          exact ih acc s h x hx
        · match hr : r tg with
          | .ok sub =>
            rw [show fcnStep r mid (.ok acc) e = .ok (setUnion (setAdd acc tg) sub) by
              simp [fcnStep, hs, he, htg, hr]] at h
            exact ih _ s h x (by
              rw [mem_setUnion, mem_setAdd]
              exact Or.inl (Or.inl hx))
          | .error er =>
            rw [show fcnStep r mid (.ok acc) e = .error er by
              simp [fcnStep, hs, he, htg, hr]] at h
            rw [foldl_fcnStep_error] at h
            cases h
      | none =>
        rw [show fcnStep r mid (.ok acc) e = .ok acc by simp [fcnStep, hs, he]] at h
        exact ih acc s h x hx
    · rw [show fcnStep r mid (.ok acc) e = .ok acc by simp [fcnStep, hs]] at h
      exact ih acc s h x hx

/-- Everything the edge fold adds is the target of a processed edge together
with the recursive set for that target. -/
theorem foldl_fcnStep_sound (r : String → Except PyErr (List String)) (mid : String)
    (l : List Edge) :
    ∀ (acc s : List String), l.foldl (fcnStep r mid) (.ok acc) = .ok s →
      ∀ x ∈ s, x ∈ acc ∨ ∃ e ∈ l, ∃ tg, e.source = some mid ∧ e.target = some tg ∧
        tg ≠ "" ∧ (x = tg ∨ ∃ sub, r tg = .ok sub ∧ x ∈ sub) := by
  induction l with
  | nil =>
    intro acc s h x hx
    simp at h
    exact Or.inl (h ▸ hx)
  | cons e t ih =>
    intro acc s h x hx
    rw [List.foldl_cons] at h
    by_cases hs : e.source = some mid
    · match he : e.target with
      | some tg =>
        by_cases htg : tg = ""
        · rw [show fcnStep r mid (.ok acc) e = .ok acc by
            simp [fcnStep, hs, he, htg]] at h
          rcases ih acc s h x hx with hl | ⟨e', he', rest⟩
          · exact Or.inl hl
          · exact Or.inr ⟨e', List.mem_cons_of_mem _ he', rest⟩
        · match hr : r tg with
          | .ok sub =>
            rw [show fcnStep r mid (.ok acc) e = .ok (setUnion (setAdd acc tg) sub) by
              simp [fcnStep, hs, he, htg, hr]] at h
            rcases ih _ s h x hx with hl | ⟨e', he', rest⟩
            · rw [mem_setUnion, mem_setAdd] at hl
              rcases hl with (hl | rfl) | hl
              · exact Or.inl hl
              · exact Or.inr ⟨e, List.mem_cons_self e t, x, hs, he, htg, Or.inl rfl⟩
              · exact Or.inr ⟨e, List.mem_cons_self e t, tg, hs, he, htg,
                  Or.inr ⟨sub, hr, hl⟩⟩
            · exact Or.inr ⟨e', List.mem_cons_of_mem _ he', rest⟩
          | .error er =>
            rw [show fcnStep r mid (.ok acc) e = .error er by
              simp [fcnStep, hs, he, htg, hr]] at h
            rw [foldl_fcnStep_error] at h
            cases h
      | none =>
        rw [show fcnStep r mid (.ok acc) e = .ok acc by simp [fcnStep, hs, he]] at h
        rcases ih acc s h x hx with hl | ⟨e', he', rest⟩
        · exact Or.inl hl
        · exact Or.inr ⟨e', List.mem_cons_of_mem _ he', rest⟩
    · rw [show fcnStep r mid (.ok acc) e = .ok acc by simp [fcnStep, hs]] at h
      rcases ih acc s h x hx with hl | ⟨e', he', rest⟩
      · exact Or.inl hl
      · exact Or.inr ⟨e', List.mem_cons_of_mem _ he', rest⟩

/-- If the fold succeeds then every processed master-edge target made it into
the result, and the recursive call for it succeeded with a subset result. -/
theorem foldl_fcnStep_complete (r : String → Except PyErr (List String)) (mid : String)
    (l : List Edge) :
    ∀ (acc s : List String), l.foldl (fcnStep r mid) (.ok acc) = .ok s →
      ∀ e ∈ l, ∀ tg, e.source = some mid → e.target = some tg → tg ≠ "" →
        tg ∈ s ∧ ∃ sub, r tg = .ok sub ∧ ∀ x ∈ sub, x ∈ s := by
  induction l with
  | nil =>
    intro acc s _ e he
    cases he
  | cons e t ih =>
    intro acc s h e' he' tg hs' ht' htg'
    rw [List.foldl_cons] at h
    rcases List.mem_cons.mp he' with rfl | hmem
    · match hr : r tg with
      | .ok sub =>
        rw [show fcnStep r mid (.ok acc) e' = .ok (setUnion (setAdd acc tg) sub) by
          simp [fcnStep, hs', ht', htg', hr]] at h
        have hgrow := foldl_fcnStep_grow r mid t _ s h
        refine ⟨hgrow tg (by rw [mem_setUnion, mem_setAdd]; exact Or.inl (Or.inr rfl)), sub, rfl, ?_⟩
        intro x hx
        exact hgrow x (by rw [mem_setUnion]; exact Or.inr hx)
      | .error er =>
        rw [show fcnStep r mid (.ok acc) e' = .error er by
          simp [fcnStep, hs', ht', htg', hr]] at h
        rw [foldl_fcnStep_error] at h
        cases h
    · by_cases hs : e.source = some mid
      · match he : e.target with
        | some tg₀ =>
          by_cases htg : tg₀ = ""
          · rw [show fcnStep r mid (.ok acc) e = .ok acc by
              simp [fcnStep, hs, he, htg]] at h
            exact ih acc s h e' hmem tg hs' ht' htg'
          · match hr : r tg₀ with
            | .ok sub =>
              rw [show fcnStep r mid (.ok acc) e = .ok (setUnion (setAdd acc tg₀) sub) by
                simp [fcnStep, hs, he, htg, hr]] at h
              exact ih _ s h e' hmem tg hs' ht' htg'
            | .error er =>
              rw [show fcnStep r mid (.ok acc) e = .error er by
                simp [fcnStep, hs, he, htg, hr]] at h
              rw [foldl_fcnStep_error] at h
              cases h
        | none =>
          rw [show fcnStep r mid (.ok acc) e = .ok acc by simp [fcnStep, hs, he]] at h
          exact ih acc s h e' hmem tg hs' ht' htg'
      · rw [show fcnStep r mid (.ok acc) e = .ok acc by simp [fcnStep, hs]] at h
        exact ih acc s h e' hmem tg hs' ht' htg'

theorem find_connected_nodes_sound (edges : List Edge) :
    ∀ (fuel : Nat) (mid : String) (s : List String),
      find_connected_nodes edges fuel mid = .ok s → ∀ x ∈ s, Reach edges mid x := by
  intro fuel
  induction fuel with
  | zero => intro mid s h; cases h
  | succ f ih =>
    intro mid s h x hx
    rw [find_connected_nodes] at h
    rcases foldl_fcnStep_sound _ mid edges [] s h x hx with hmem | ⟨e, he, tg, hs, ht, htg, hor⟩
    · cases hmem
    · rcases hor with rfl | ⟨sub, hr, hsub⟩
      · exact Reach.single ⟨e, he, hs, ht, htg⟩
      · exact Reach.head ⟨e, he, hs, ht, htg⟩ (ih tg sub hr x hsub)

theorem find_connected_nodes_complete (edges : List Edge) (mid x : String)
    (hr : Reach edges mid x) :
    ∀ (fuel : Nat) (s : List String),
      find_connected_nodes edges fuel mid = .ok s → x ∈ s := by
  induction hr with
  | single hv =>
    intro fuel s h
    match fuel with
    | 0 => cases h
    | f + 1 =>
      rw [find_connected_nodes] at h
      obtain ⟨e, he, hs, ht, htg⟩ := hv
      exact (foldl_fcnStep_complete _ _ edges [] s h e he _ hs ht htg).1
  | head hv _ ih =>
    intro fuel s h
    match fuel with
    | 0 => cases h
    | f + 1 =>
      rw [find_connected_nodes] at h
      obtain ⟨e, he, hs, ht, htg⟩ := hv
      obtain ⟨_, sub, hrec, hsubset⟩ :=
        foldl_fcnStep_complete _ _ edges [] s h e he _ hs ht htg
      exact hsubset _ (ih f sub hrec)

/-- On success, `_find_connected_nodes` computes exactly the set of nodes
reachable from the master along directed edges. -/
theorem find_connected_nodes_iff_reach (edges : List Edge) (fuel : Nat)
    (mid : String) (s : List String)
    (h : find_connected_nodes edges fuel mid = .ok s) (x : String) :
    x ∈ s ↔ Reach edges mid x :=
  ⟨fun hx => find_connected_nodes_sound edges fuel mid s h x hx,
   fun hr => find_connected_nodes_complete edges mid x hr fuel s h⟩

theorem buildSubAgents_eq (connected : List String) :
    ∀ (ns : List Node) (subs : List SubAgent),
      buildSubAgents connected ns = .ok subs →
      subs = (ns.filter (idConnected connected)).filterMap convert_node_to_sub_agent := by
  intro ns
  induction ns with
  | nil => intro subs h; simpa [buildSubAgents] using h.symm
  | cons n t ih =>
    intro subs h
    match hid : n.id with
    | none =>
      rw [buildSubAgents, hid] at h
      cases h
    | some nid =>
      rw [buildSubAgents, hid] at h
      dsimp only at h
      by_cases hmem : nid ∈ connected
      · rw [if_pos hmem] at h
        have hconn : idConnected connected n = true := by
          simp [idConnected, hid, hmem]
        match hc : convert_node_to_sub_agent n with
        | some sa =>
          rw [hc] at h
          match hrest : buildSubAgents connected t with
          | .ok rest =>
            rw [hrest] at h
            cases h
            rw [List.filter_cons_of_pos hconn, List.filterMap_cons, hc]
            rw [ih rest hrest]
          | .error er =>
            rw [hrest] at h
            cases h
        | none =>
          rw [hc] at h
          rw [List.filter_cons_of_pos hconn, List.filterMap_cons, hc]
          exact ih subs h
      · rw [if_neg hmem] at h
        have hconn : idConnected connected n = false := by
          simp [idConnected, hid, hmem]
        rw [List.filter_cons_of_neg (by simp [hconn])]
        exact ih subs h

/-! ### Identifier-shape lemmas -/

theorem IdTree.kidsSpec_get (cs : List IdTree) (base : String) :
    ∀ (i k : Nat) (c : IdTree), IdTree.kidsSpec cs base i → cs.get? k = some c →
      IdTree.spec c (base ++ "_" ++ natStr (i + k)) := by
  induction cs with
  | nil => intro i k c _ hk; cases hk
  | cons c0 cs ih =>
    intro i k c hs hk
    rw [IdTree.kidsSpec] at hs
    match k with
    | 0 =>
      simp [List.get?] at hk
      subst hk
      simpa using hs.1
    | k + 1 =>
      have h2 := ih (i + 1) k c hs.2 (by simpa [List.get?] using hk)
      have harith : i + 1 + k = i + (k + 1) := by omega
      rw [harith] at h2
      exact h2

theorem IdTree.spec_ident {t : IdTree} {base : String} (hs : IdTree.spec t base) :
    t.ident = base := by
  obtain ⟨i, cs⟩ := t
  rw [IdTree.spec] at hs
  exact hs.1

/-- The subtree at path `p` of a spec-conforming tree carries the path
encoding of `p`. -/
theorem IdTree.spec_get (p : List Nat) :
    ∀ (t : IdTree) (base : String) (sub : IdTree), IdTree.spec t base →
      IdTree.get p t = some sub → sub.ident = extendIdent base p := by
  induction p with
  | nil =>
    intro t base sub hs hg
    rw [IdTree.get] at hg
    cases hg
    simpa using IdTree.spec_ident hs
  | cons i q ih =>
    intro t base sub hs hg
    rw [IdTree.get] at hg
    obtain ⟨tid, cs⟩ := t
    rw [IdTree.spec] at hs
    match hc : IdTree.childAt (.mk tid cs) i with
    | none => rw [hc] at hg; cases hg
    | some c =>
      rw [hc] at hg
      unfold IdTree.childAt at hc
      by_cases hi : i = 0
      · rw [if_pos hi] at hc; cases hc
      · rw [if_neg hi] at hc
        have hcs : cs.get? (i - 1) = some c := hc
        have hcspec := IdTree.kidsSpec_get cs base 1 (i - 1) c hs.2 hcs
        have harith : 1 + (i - 1) = i := by omega
        rw [harith] at hcspec
        have := ih c (base ++ "_" ++ natStr i) sub hcspec hg
        rw [this, extendIdent_cons]

mutual
theorem IdTree.spec_idents : ∀ (t : IdTree) (base : String), IdTree.spec t base →
    IdTree.idents t = (IdTree.paths t).map (extendIdent base)
  | .mk i cs, base, hs => by
    rw [IdTree.spec] at hs
    rw [IdTree.idents, IdTree.paths, List.map_cons, extendIdent_nil, hs.1]
    rw [IdTree.spec_kids_idents cs base 1 hs.2]

theorem IdTree.spec_kids_idents : ∀ (cs : List IdTree) (base : String) (i : Nat),
    IdTree.kidsSpec cs base i →
    IdTree.identsKids cs = (IdTree.pathsKids cs i).map (extendIdent base)
  | [], _, _, _ => by rw [IdTree.identsKids, IdTree.pathsKids]; rfl
  | c :: cs, base, i, hs => by
    rw [IdTree.kidsSpec] at hs
    rw [IdTree.identsKids, IdTree.pathsKids, List.map_append, List.map_map]
    have hcomp : (extendIdent base ∘ fun p => i :: p) = extendIdent (base ++ "_" ++ natStr i) := by
      funext p
      simp [Function.comp, extendIdent_cons]
    rw [hcomp, ← IdTree.spec_idents c (base ++ "_" ++ natStr i) hs.1,
      ← IdTree.spec_kids_idents cs base (i + 1) hs.2]
end

theorem IdTree.pathsKids_mem (cs : List IdTree) :
    ∀ (i : Nat) (q : List Nat), q ∈ IdTree.pathsKids cs i → ∃ j p, q = j :: p ∧ i ≤ j := by
  induction cs with
  | nil => intro i q hq; rw [IdTree.pathsKids] at hq; cases hq
  | cons c cs ih =>
    intro i q hq
    rw [IdTree.pathsKids, List.mem_append] at hq
    rcases hq with hq | hq
    · obtain ⟨p, _, rfl⟩ := List.mem_map.mp hq
      exact ⟨i, p, rfl, le_refl i⟩
    · obtain ⟨j, p, rfl, hj⟩ := ih (i + 1) q hq
      exact ⟨j, p, rfl, by omega⟩

mutual
theorem IdTree.paths_nodup : ∀ (t : IdTree), (IdTree.paths t).Nodup
  | .mk i cs => by
    rw [IdTree.paths, List.nodup_cons]
    refine ⟨fun hmem => ?_, IdTree.pathsKids_nodup cs 1⟩
    obtain ⟨j, p, hq, _⟩ := IdTree.pathsKids_mem cs 1 [] hmem
    cases hq

theorem IdTree.pathsKids_nodup : ∀ (cs : List IdTree) (i : Nat),
    (IdTree.pathsKids cs i).Nodup
  | [], _ => by rw [IdTree.pathsKids]; exact List.nodup_nil
  | c :: cs, i => by
    rw [IdTree.pathsKids]
    refine List.Nodup.append ?_ (IdTree.pathsKids_nodup cs (i + 1)) ?_
    · exact (IdTree.paths_nodup c).map (fun p q h => by
        injection h)
    · intro q hq1 hq2
      obtain ⟨p, _, rfl⟩ := List.mem_map.mp hq1
      obtain ⟨j, p', he, hj⟩ := IdTree.pathsKids_mem cs (i + 1) _ hq2
      injection he with h1 _
      omega
end

/-- Spec-conforming trees have pairwise distinct identifiers. -/
theorem IdTree.spec_idents_nodup (t : IdTree) (hs : IdTree.spec t "1") :
    (IdTree.idents t).Nodup := by
  rw [IdTree.spec_idents t "1" hs]
  exact (IdTree.paths_nodup t).map extendIdent_one_injective

/-! ### Both identifier stampers satisfy the shape specification -/

mutual
theorem process_agent_spec : ∀ (a : PAgent) (base : String),
    IdTree.spec (PAgent.idTree (process_agent a base)) base
  | .mk f none, base => by
    rw [process_agent, PAgent.idTree, IdTree.spec]
    exact ⟨rfl, trivial⟩
  | .mk f (some cs), base => by
    rw [process_agent, PAgent.idTree, IdTree.spec]
    exact ⟨rfl, processKids_spec cs base 1⟩

theorem processKids_spec : ∀ (cs : List PAgent) (base : String) (i : Nat),
    IdTree.kidsSpec (pIdTreeKids (processKids cs base i)) base i
  | [], base, i => by
    rw [processKids, pIdTreeKids]
    trivial
  | c :: cs, base, i => by
    rw [processKids, pIdTreeKids, IdTree.kidsSpec]
    exact ⟨process_agent_spec c (base ++ "_" ++ natStr i), processKids_spec cs base (i + 1)⟩
end

theorem seqIdTree_mk_none (i p ty : String) (r : Option (List String))
    (dp : Option (List SeqDataPoint)) (ec : Option EmailCfg) :
    SeqAgent.idTree (.mk i p ty r dp ec none) = .mk i [] := by
  rw [SeqAgent.idTree]

theorem seqIdTree_mk_some (i p ty : String) (r : Option (List String))
    (dp : Option (List SeqDataPoint)) (ec : Option EmailCfg) (cs : List SeqAgent) :
    SeqAgent.idTree (.mk i p ty r dp ec (some cs)) = .mk i (seqIdTreeKids cs) := by
  rw [SeqAgent.idTree]

theorem convertKids_spec (tree : Dict (List String)) (nodes : List Node) (fuel : Nat)
    (hrec : ∀ nid ident t, convert_tree tree nodes fuel nid ident = .ok t →
      IdTree.spec (SeqAgent.idTree t) ident) :
    ∀ (cs : List String) (ident : String) (i : Nat) (kids : List SeqAgent),
      convertKids (fun c cid => convert_tree tree nodes fuel c cid) ident i cs = .ok kids →
      IdTree.kidsSpec (seqIdTreeKids kids) ident i := by
  intro cs
  induction cs with
  | nil =>
    intro ident i kids h
    rw [convertKids] at h
    cases h
    rw [seqIdTreeKids, IdTree.kidsSpec]
    trivial
  | cons c cs ih =>
    intro ident i kids h
    rw [convertKids] at h
    match hc : convert_tree tree nodes fuel c (ident ++ "_" ++ natStr i) with
    | .error e => rw [hc] at h; cases h
    | .ok child =>
      rw [hc] at h
      match hr : convertKids (fun c cid => convert_tree tree nodes fuel c cid) ident (i + 1) cs with
      | .error e => rw [hr] at h; cases h
      | .ok rest =>
        rw [hr] at h
        cases h
        rw [seqIdTreeKids, IdTree.kidsSpec]
        exact ⟨hrec c (ident ++ "_" ++ natStr i) child hc, ih ident (i + 1) rest hr⟩

/-- Whenever `_convert_tree_to_sequential_agent` succeeds, the produced tree
follows the identifier discipline rooted at the provided identifier. -/
theorem convert_tree_spec (tree : Dict (List String)) (nodes : List Node) :
    ∀ (fuel : Nat) (nid ident : String) (t : SeqAgent),
      convert_tree tree nodes fuel nid ident = .ok t →
      IdTree.spec (SeqAgent.idTree t) ident := by
  intro fuel
  induction fuel with
  | zero => intro nid ident t h; cases h
  | succ f ih =>
    intro nid ident t h
    rw [convert_tree] at h
    match hf : findNodeById nodes nid with
    | .error e => rw [hf] at h; cases h
    | .ok none => rw [hf] at h; cases h
    | .ok (some node) =>
      rw [hf] at h
      dsimp only at h
      by_cases hkids : (dictGet? tree nid).getD [] ≠ []
      · rw [if_pos hkids] at h
        match hk : convertKids (fun c cid => convert_tree tree nodes f c cid) ident 1
            ((dictGet? tree nid).getD []) with
        | .error e => rw [hk] at h; cases h
        | .ok kids =>
          rw [hk] at h
          cases h
          rw [seqIdTree_mk_some, IdTree.spec]
          exact ⟨rfl, convertKids_spec tree nodes f ih _ ident 1 kids hk⟩
      · rw [if_neg hkids] at h
        cases h
        rw [seqIdTree_mk_none, IdTree.spec]
        exact ⟨rfl, trivial⟩


/-- The spec property is hereditary: it descends along `get` with the encoded
path as the new base. -/
theorem IdTree.spec_descend (p : List Nat) :
    ∀ (t : IdTree) (base : String) (sub : IdTree), IdTree.spec t base →
      IdTree.get p t = some sub → IdTree.spec sub (extendIdent base p) := by
  induction p with
  | nil =>
    intro t base sub hs hg
    rw [IdTree.get] at hg
    cases hg
    simpa using hs
  | cons i q ih =>
    intro t base sub hs hg
    rw [IdTree.get] at hg
    obtain ⟨tid, cs⟩ := t
    rw [IdTree.spec] at hs
    match hc : IdTree.childAt (.mk tid cs) i with
    | none => rw [hc] at hg; cases hg
    | some c =>
      rw [hc] at hg
      unfold IdTree.childAt at hc
      by_cases hi : i = 0
      · rw [if_pos hi] at hc; cases hc
      · rw [if_neg hi] at hc
        have hcspec := IdTree.kidsSpec_get cs base 1 (i - 1) c hs.2 hc
        have harith : 1 + (i - 1) = i := by omega
        rw [harith] at hcspec
        rw [extendIdent_cons]
        exact ih c (base ++ "_" ++ natStr i) sub hcspec hg

theorem IdTree.spec_child {t : IdTree} {base : String} (hs : IdTree.spec t base)
    {p : List Nat} {sub : IdTree} (hg : IdTree.get p t = some sub)
    {i : Nat} {c : IdTree} (hc : IdTree.childAt sub i = some c) :
    c.ident = sub.ident ++ "_" ++ natStr i := by
  have hsub := IdTree.spec_descend p t base sub hs hg
  obtain ⟨sid, cs⟩ := sub
  rw [IdTree.spec] at hsub
  unfold IdTree.childAt at hc
  by_cases hi : i = 0
  · rw [if_pos hi] at hc; cases hc
  · rw [if_neg hi] at hc
    have hcspec := IdTree.kidsSpec_get cs (extendIdent base p) 1 (i - 1) c hsub.2 hc
    have harith : 1 + (i - 1) = i := by omega
    rw [harith] at hcspec
    rw [IdTree.spec_ident hcspec, IdTree.ident, hsub.1]

theorem identDiscipline_of_spec (t : IdTree) (hs : IdTree.spec t "1") :
    IdentDiscipline t :=
  ⟨IdTree.spec_ident hs,
   fun _ _ _ _ hg hc => IdTree.spec_child hs hg hc,
   IdTree.spec_idents t "1" hs,
   IdTree.spec_idents_nodup t hs⟩

/-- C5: for every tree-shaped input, sequential identifier assignment — by the
translator (`_convert_tree_to_sequential_agent`) and by the sequential
engine's configuration load (`add_identifiers_to_json`) — gives the root
identifier `"1"`, gives the i-th (1-based) child of a node with identifier `X`
the identifier `"X_i"`, depends only on the tree position (so repeated
translation of the same input yields identical identifiers), and makes all
assigned identifiers pairwise distinct. -/
theorem C5_sequential_identifiers :
    (∀ (cfg : SeqEngineConfig) (a : PAgent), cfg.startingAgent = some a →
      ∃ a', (add_identifiers_to_json cfg).startingAgent = some a' ∧
        a' = process_agent a "1" ∧ IdentDiscipline (PAgent.idTree a')) ∧
    (∀ (tree : Dict (List String)) (nodes : List Node) (fuel : Nat) (nid : String)
        (t : SeqAgent), convert_tree tree nodes fuel nid "1" = .ok t →
      IdentDiscipline (SeqAgent.idTree t)) := by
  constructor
  · intro cfg a ha
    refine ⟨process_agent a "1", ?_, rfl, identDiscipline_of_spec _ (process_agent_spec a "1")⟩
    rw [add_identifiers_to_json, ha]
  · intro tree nodes fuel nid t h
    exact identDiscipline_of_spec _ (convert_tree_spec tree nodes fuel nid "1" t h)

/-- Witness for C5 at a concrete two-child configuration and a concrete
two-node translator input. -/
theorem C5_sequential_identifiers_witness :
    (∃ a', (add_identifiers_to_json
        { startingAgent := some (.mk {} (some [.mk {} none, .mk {} none])) }).startingAgent
          = some a' ∧ IdentDiscipline (PAgent.idTree a')) ∧
    (∃ t, convert_tree [("r", ["d"]), ("d", [])]
        [{ id := some "r", type := some "RoutingAgent" },
         { id := some "d", type := some "DataCollectionAgent" }] 5 "r" "1" = .ok t ∧
      IdentDiscipline (SeqAgent.idTree t)) := by
  constructor
  · obtain ⟨a', ha, _, hd⟩ := C5_sequential_identifiers.1
      { startingAgent := some (.mk {} (some [.mk {} none, .mk {} none])) }
      (.mk {} (some [.mk {} none, .mk {} none])) rfl
    exact ⟨a', ha, hd⟩
  · obtain ⟨t, ht⟩ : ∃ t, convert_tree [("r", ["d"]), ("d", [])]
        [{ id := some "r", type := some "RoutingAgent" },
         { id := some "d", type := some "DataCollectionAgent" }] 5 "r" "1" = .ok t := ⟨_, rfl⟩
    exact ⟨t, ht, C5_sequential_identifiers.2 _ _ 5 "r" t ht⟩

/-- C8: the top-level flow translation entry point `translate_flow_to_backend`
never raises anything but a `FlowTranslationError`: every error outcome is a
`FlowTranslationError` whose message carries the underlying cause raised by
the dispatched translation. -/
theorem C8_translation_error_wrapping (fuel : Nat) (paradigm : PyStr)
    (nodes : List Node) (edges : List Edge) :
    (∃ c, translate_flow_to_backend fuel paradigm nodes edges = .ok c) ∨
    (∃ cause, translateDispatch fuel paradigm nodes edges = .error cause ∧
      translate_flow_to_backend fuel paradigm nodes edges =
        .error (.flowTranslationError ("Translation failed: " ++ cause.str))) := by
  unfold translate_flow_to_backend
  match h : translateDispatch fuel paradigm nodes edges with
  | .ok c => exact Or.inl ⟨c, rfl⟩
  | .error e => exact Or.inr ⟨e, rfl, rfl⟩


/-- C9: the Agentic engine's `load_configuration` is not atomic on failure —
when the sub-agent validation loop raises (missing `type`, type outside
browser-agent/mail-agent, or missing `prompt`), the shared session state has
already been replaced with the rejected configuration, whatever it held
before. -/
theorem C9_load_configuration_not_atomic (st : JSONFlowDataState)
    (config : AgEngineConfig) (p : PyStr) (sas : List AgSubAgent) (err : PyErr)
    (hp : config.paradigm = some p) (hs : config.subAgents = some sas)
    (hv : validateSubAgents 0 sas = some err) :
    load_configuration st config =
      (some err, { current_config := config, paradigm := p, sub_agents := sas }) := by
  unfold load_configuration
  rw [hp]
  dsimp only
  rw [hs]
  dsimp only
  rw [hv]

/-- Witness for C9: a configuration whose second sub-agent has an invalid
type replaces the previously loaded state before the error is raised. -/
theorem C9_load_configuration_not_atomic_witness :
    load_configuration
      { current_config := {}, sub_agents := [], paradigm := .str "Agentic" }
      { paradigm := some (.str "Agentic"),
        subAgents := some [{ type := some "browser-agent", prompt := some "ok" },
                           { type := some "weird-agent", prompt := some "p" }] } =
      (some (.valueError "Sub-agent 1 has invalid type: weird-agent"),
       { current_config :=
           { paradigm := some (.str "Agentic"),
             subAgents := some [{ type := some "browser-agent", prompt := some "ok" },
                                { type := some "weird-agent", prompt := some "p" }] },
         paradigm := .str "Agentic",
         sub_agents := [{ type := some "browser-agent", prompt := some "ok" },
                        { type := some "weird-agent", prompt := some "p" }] }) :=
  C9_load_configuration_not_atomic _ _ _ _ _ rfl rfl rfl

/-- C3: when flow translation fails, `start_run` returns HTTP 400 with the
translation message, and the registries and the background-task schedule are
exactly as before the call: no `Run` record is inserted and no execution task
is scheduled, so the run can never reach status `"running"`. -/
theorem C3_translation_failure_no_run (st : RunsState) (req : RunStartRequest)
    (runId now : String) (fuel : Nat) (oracle : Except String (String × Option String))
    (flowData : FlowData) (e : PyErr)
    (hflow : req.flow = some flowData)
    (htr : translate_flow_to_backend fuel (flowData.paradigm.getD (.str "Agentic"))
      flowData.nodes flowData.edges = .error e) :
    start_run st req runId now fuel oracle =
      (.error ⟨400, "Invalid flow structure: " ++ e.str⟩, st) := by
  unfold start_run
  rw [if_neg (by simp [hflow])]
  rw [hflow]
  dsimp only
  rw [htr]

/-- Witness for C3: an agentic flow without a MasterAgent node is rejected
with 400 and leaves the registry empty. -/
theorem C3_translation_failure_no_run_witness :
    start_run { active_runs := [], run_events := [], scheduled := [] }
      { flow := some { paradigm := some (.str "Agentic") } } "run-1" "t0" 10
      (.error "no room") =
      (.error ⟨400,
        "Invalid flow structure: Translation failed: Agentic flow requires a MasterAgent node"⟩,
       { active_runs := [], run_events := [], scheduled := [] }) :=
  C3_translation_failure_no_run _ _ _ _ _ _ _
    (.flowTranslationError "Translation failed: Agentic flow requires a MasterAgent node")
    rfl (by rfl)


/-- C4 counterexample: with nodes `[Master m, Execution b, Execution a]` and
edges `m→a, a→b`, the traversal discovers `a` before `b`, but the translator
emits the sub-agents in input node order (`b` before `a`), so the claimed
discovery ordering is false at this input. -/
theorem C4_counterexample :
    (translate_to_agentic 10
        [{ id := some "m", type := some "MasterAgent" },
         { id := some "b", type := some "ExecutionAgent",
           data := { systemPrompt := some "Prompt B" } },
         { id := some "a", type := some "ExecutionAgent",
           data := { systemPrompt := some "Prompt A" } }]
        [{ source := some "m", target := some "a" },
         { source := some "a", target := some "b" }]).toOption.map AgenticConfig.subAgents ≠
      agenticSubAgentsDiscoveryOrder 10
        [{ id := some "m", type := some "MasterAgent" },
         { id := some "b", type := some "ExecutionAgent",
           data := { systemPrompt := some "Prompt B" } },
         { id := some "a", type := some "ExecutionAgent",
           data := { systemPrompt := some "Prompt A" } }]
        [{ source := some "m", target := some "a" },
         { source := some "a", target := some "b" }] := by
  decide

/-- C4 (amended): for a node/edge set with exactly one MasterAgent on which
translation succeeds, the sub-agents are exactly the conversions of the
execution-typed nodes (`ExecutionAgent`, `MailAgent`, `DataCollectionAgent`,
`RoutingAgent`) whose id the traversal reached from the master — and traversal
membership coincides with directed reachability — but the list is ordered by
the input node order, not by traversal discovery order. -/
theorem C4_agentic_subagents (fuel : Nat) (nodes : List Node) (edges : List Edge)
    (m : Node) (cfg : AgenticConfig)
    (hm : nodes.filter (fun n => nodeTypeLower n = "masteragent") = [m])
    (hok : translate_to_agentic fuel nodes edges = .ok cfg) :
    ∃ mid connected, m.id = some mid ∧
      find_connected_nodes edges fuel mid = .ok connected ∧
      (∀ x, x ∈ connected ↔ Reach edges mid x) ∧
      cfg.subAgents = ((nodes.filter isExecType).filter (idConnected connected)).filterMap
        convert_node_to_sub_agent := by
  unfold translate_to_agentic at hok
  rw [hm] at hok
  have hml : ([m].getLast?) = some m := rfl
  rw [hml] at hok
  dsimp only at hok
  match hid : m.id with
  | none => rw [hid] at hok; cases hok
  | some mid =>
    rw [hid] at hok
    dsimp only at hok
    match hc : find_connected_nodes edges fuel mid with
    | .error e => rw [hc] at hok; cases hok
    | .ok connected =>
      rw [hc] at hok
      dsimp only at hok
      match hb : buildSubAgents connected (nodes.filter isExecType) with
      | .error e => rw [hb] at hok; cases hok
      | .ok subs =>
        rw [hb] at hok
        dsimp only at hok
        cases hok
        exact ⟨mid, connected, rfl,
          hc,
          fun x => find_connected_nodes_iff_reach edges fuel mid connected hc x,
          buildSubAgents_eq connected (nodes.filter isExecType) subs hb⟩

/-- Witness for C4 (amended) at the counterexample input. -/
theorem C4_agentic_subagents_witness :
    ∃ cfg, translate_to_agentic 10
        [{ id := some "m", type := some "MasterAgent" },
         { id := some "b", type := some "ExecutionAgent",
           data := { systemPrompt := some "Prompt B" } },
         { id := some "a", type := some "ExecutionAgent",
           data := { systemPrompt := some "Prompt A" } }]
        [{ source := some "m", target := some "a" },
         { source := some "a", target := some "b" }] = .ok cfg ∧
      ∃ mid connected, (some "m" : Option String) = some mid ∧
        find_connected_nodes
          [{ source := some "m", target := some "a" },
           { source := some "a", target := some "b" }] 10 mid = .ok connected ∧
        (∀ x, x ∈ connected ↔ Reach
          [{ source := some "m", target := some "a" },
           { source := some "a", target := some "b" }] mid x) ∧
        cfg.subAgents =
          ((([{ id := some "m", type := some "MasterAgent" },
              { id := some "b", type := some "ExecutionAgent",
                data := { systemPrompt := some "Prompt B" } },
              { id := some "a", type := some "ExecutionAgent",
                data := { systemPrompt := some "Prompt A" } }] : List Node).filter
            isExecType).filter (idConnected connected)).filterMap
            convert_node_to_sub_agent := by
  obtain ⟨cfg, hok⟩ : ∃ cfg, translate_to_agentic 10
      [{ id := some "m", type := some "MasterAgent" },
       { id := some "b", type := some "ExecutionAgent",
         data := { systemPrompt := some "Prompt B" } },
       { id := some "a", type := some "ExecutionAgent",
         data := { systemPrompt := some "Prompt A" } }]
      [{ source := some "m", target := some "a" },
       { source := some "a", target := some "b" }] = .ok cfg := ⟨_, by rfl⟩
  have h := C4_agentic_subagents 10 _ _
    { id := some "m", type := some "MasterAgent" } cfg (by decide) hok
  exact ⟨cfg, hok, h⟩


/-- Once the cursor has caught up with the recorded events, a quiescent
registered run makes the polling loop spin forever: no frame is emitted and
the stream never closes, for any number of iterations. -/
theorem sse_poll_quiescent (events : List Event) :
    ∀ fuel : Nat, sse_poll events true fuel events.length = ([], false) := by
  intro fuel
  induction fuel with
  | zero => rfl
  | succ f ih =>
    rw [sse_poll]
    simp [List.drop_length, emitBatch, ih]

/-- C1 (the code at the failing input): for a registered run whose recorded
event list already ends with `run_completed` when the client connects, the
generator replays every recorded event in order and then polls forever — the
terminal-event check only runs for events discovered after the replay, and the
run is never removed from the registry, so the stream never closes. -/
theorem C1_sse_stream_never_closes_after_completion (runId : String)
    (events : List Event) (ev : Event)
    (hlast : events.getLast? = some ev) (hterm : ev.type = "run_completed")
    (fuel : Nat) :
    generate_sse_events runId true events fuel =
      (events.map SSEFrame.dataFrame, false) := by
  rw [generate_sse_events]
  simp [sse_poll_quiescent]

/-- Witness for C1 at a two-event recorded list ending in `run_completed`. -/
theorem C1_sse_stream_never_closes_witness :
    generate_sse_events "run-1" true
      [{ type := "run_started", timestamp := "t0", runId := "run-1", payload := [] },
       { type := "run_completed", timestamp := "t1", runId := "run-1", payload := [] }] 3 =
      ([SSEFrame.dataFrame
          { type := "run_started", timestamp := "t0", runId := "run-1", payload := [] },
        SSEFrame.dataFrame
          { type := "run_completed", timestamp := "t1", runId := "run-1", payload := [] }],
       false) :=
  C1_sse_stream_never_closes_after_completion "run-1"
    [{ type := "run_started", timestamp := "t0", runId := "run-1", payload := [] },
     { type := "run_completed", timestamp := "t1", runId := "run-1", payload := [] }]
    { type := "run_completed", timestamp := "t1", runId := "run-1", payload := [] }
    rfl rfl 3

/-- C2 (the code): when a provider client is configured and `html` is present,
`send_mail` invokes the provider with *both* the `html` and the `text`
keyword arguments — the text content is forwarded unchanged, contradicting
the html-only claim (and the repository's own
`test_send_mail_html_preferred_over_text`). -/
theorem C2_text_forwarded_to_provider (md : MailRequest) (env : MailEnv)
    (hc : env.clientConfigured = true)
    (hhtml : truthyS md.html = true)
    (hinbox : truthyS env.inboxEnv = true) :
    (send_mail md env).2 =
      [{ inbox_id := env.inboxEnv.getD "", toAddr := md.toAddr, subject := md.subject,
         html := md.html, text := md.text }] := by
  unfold send_mail
  rw [if_neg (by simp [hc])]
  rw [if_neg (by simp [hhtml])]
  rw [if_pos hinbox]
  dsimp only
  match hp : env.providerSend
      { inbox_id := env.inboxEnv.getD "", toAddr := md.toAddr, subject := md.subject,
        html := md.html, text := md.text } with
  | .ok mid => rfl
  | .error e => rfl

/-- Witness for C2 at the failing input of the repository test (both `html`
and `text` set): the single provider call carries the text content. -/
theorem C2_text_forwarded_to_provider_witness :
    (send_mail
      { toAddr := "test@example.com", subject := "Test Email",
        html := some "<p>HTML content</p>", text := some "Text content" }
      { clientConfigured := true, debugEnv := false, inboxEnv := some "inbox@tzlm.io",
        hashStr := "h", createInbox := .ok "inbox@tzlm.io",
        providerSend := fun _ => .ok (some "msg-11111") }).2 =
      [{ inbox_id := "inbox@tzlm.io", toAddr := "test@example.com", subject := "Test Email",
         html := some "<p>HTML content</p>", text := some "Text content" }] :=
  C2_text_forwarded_to_provider _ _ rfl rfl rfl


/-- `add_run_event` preserves the two-store agreement of every registered run:
an append for the same run goes to both lists, an append for another run
touches neither. -/
theorem add_run_event_mirror (st : RunsState) (rid : String)
    (h : runEventsMirror st rid) (rid' ty : String) (pl : Dict String) (now : String) :
    runEventsMirror (add_run_event st rid' ty pl now) rid := by
  obtain ⟨info, ha, he⟩ := h
  unfold add_run_event runEventsMirror
  dsimp only
  by_cases hr : rid' = rid
  · subst hr
    rw [if_pos (by rw [he]; rfl), ha]
    refine ⟨{ info with events := info.events ++
      [{ type := ty, timestamp := now, runId := rid', payload := pl }] },
      dictGet?_set_self _ _ _, ?_⟩
    rw [dictGet?_set_self, he]
    rfl
  · refine ⟨info, ?_, ?_⟩
    · match hget : dictGet? st.active_runs rid' with
      | some info' => rw [dictGet?_set_ne _ _ _ _ hr, ha]
      | none => exact ha
    · rw [dictGet?_set_ne _ _ _ _ hr]
      by_cases hsome : (dictGet? st.run_events rid').isSome
      · rw [if_pos hsome]
        exact he
      · rw [if_neg hsome, dictGet?_set_ne _ _ _ _ hr]
        exact he

theorem applyRunEvents_mirror (rid : String) :
    ∀ (calls : List (String × String × Dict String × String)) (st : RunsState),
      runEventsMirror st rid → runEventsMirror (applyRunEvents st calls) rid := by
  intro calls
  induction calls with
  | nil => intro st h; exact h
  | cons c rest ih =>
    intro st h
    obtain ⟨rid', ty, pl, now⟩ := c
    exact ih _ (add_run_event_mirror st rid h rid' ty pl now)

/-- A successful `start_run` inserts a fresh record with an empty `events`
list and initializes `run_events[runId]` to an empty list. -/
theorem start_run_ok_state (st : RunsState) (req : RunStartRequest) (runId now : String)
    (fuel : Nat) (oracle : Except String (String × Option String))
    (resp : RunStartResponse) (st' : RunsState)
    (h : start_run st req runId now fuel oracle = (.ok resp, st')) :
    resp.runId = runId ∧ ∃ info : RunInfo, info.events = [] ∧
      st'.active_runs = dictSet st.active_runs runId info ∧
      st'.run_events = dictSet st.run_events runId [] := by
  unfold start_run at h
  by_cases h1 : ¬ truthyS req.flowId ∧ req.flow.isNone
  · rw [if_pos h1] at h
    simp at h
  · rw [if_neg h1] at h
    match hf : req.flow with
    | none => rw [hf] at h; simp at h
    | some fd =>
      rw [hf] at h
      dsimp only at h
      match ht : translate_flow_to_backend fuel (fd.paradigm.getD (.str "Agentic"))
          fd.nodes fd.edges with
      | .error e => rw [ht] at h; simp at h
      | .ok cfg =>
        rw [ht] at h
        dsimp only at h
        by_cases hv : fd.voiceEnabled
        · rw [if_pos hv] at h
          match ho : oracle with
          | .error msg =>
            dsimp only at h
            simp at h
          | .ok (r, t) =>
            dsimp only at h
            rw [Prod.mk.injEq] at h
            obtain ⟨hresp, hst⟩ := h
            injection hresp with hresp
            subst hresp
            subst hst
            refine ⟨rfl, _, ?_, rfl, rfl⟩
            rfl
        · rw [if_neg hv] at h
          dsimp only at h
          rw [Prod.mk.injEq] at h
          obtain ⟨hresp, hst⟩ := h
          injection hresp with hresp
          subst hresp
          subst hst
          refine ⟨rfl, _, ?_, rfl, rfl⟩
          rfl

/-- C10: for every run created by a successful `POST /api/runs`, after any
sequence of `add_run_event` calls the run's two event stores remain
element-for-element equal: `run_events[runId]` is exactly the `events` list of
the registry record (both start empty and every append writes to both). -/
theorem C10_event_stores_mirror (st : RunsState) (req : RunStartRequest)
    (runId now : String) (fuel : Nat) (oracle : Except String (String × Option String))
    (resp : RunStartResponse) (st' : RunsState)
    (h : start_run st req runId now fuel oracle = (.ok resp, st'))
    (calls : List (String × String × Dict String × String)) :
    runEventsMirror (applyRunEvents st' calls) resp.runId := by
  obtain ⟨hrid, info, hev, ha, he⟩ := start_run_ok_state st req runId now fuel oracle resp st' h
  refine applyRunEvents_mirror resp.runId calls st' ⟨info, ?_, ?_⟩
  · rw [hrid, ha]
    exact dictGet?_set_self _ _ _
  · rw [hrid, he, hev]
    exact dictGet?_set_self _ _ _

/-- Witness for C10: a concrete headless run is created and two events are
appended for it (plus one for an unrelated id); the stores agree. -/
theorem C10_event_stores_mirror_witness :
    ∃ resp st', start_run { active_runs := [], run_events := [], scheduled := [] }
        { flow := some { paradigm := some (.str "Agentic"),
                         nodes := [{ id := some "m", type := some "MasterAgent" }] } }
        "run-1" "t0" 10 (.error "no room") = (.ok resp, st') ∧
      runEventsMirror (applyRunEvents st'
        [("run-1", "run_started", [], "t1"),
         ("other", "run_started", [], "t2"),
         ("run-1", "run_completed", [], "t3")]) resp.runId := by
  obtain ⟨resp, st', h⟩ : ∃ resp st',
      start_run { active_runs := [], run_events := [], scheduled := [] }
        { flow := some { paradigm := some (.str "Agentic"),
                         nodes := [{ id := some "m", type := some "MasterAgent" }] } }
        "run-1" "t0" 10 (.error "no room") = (.ok resp, st') := ⟨_, _, by rfl⟩
  exact ⟨resp, st', h,
    C10_event_stores_mirror _ _ "run-1" "t0" 10 (.error "no room") resp st' h _⟩


/-- C6: `browser_function`/`mail_function` with an out-of-range `agent_id`
return an error result and a null next-node — the conversation stays on the
current master node, the flow-manager state is untouched, and no browser
session is opened; with an in-range `agent_id` whose sub-agent type does not
match the function, they return a `status: "error"` result tagged with the
sub-agent's actual type, again with a null next-node, untouched state, and no
browser session. -/
theorem C6_subagent_dispatch_validation (d : JSONFlowDataState) (fm : Dict FMEntry)
    (env : BrowserEnv) (now : Nat) (aid : Int) :
    ((aid < 0 ∨ (d.sub_agents.length : Int) ≤ aid) →
      browser_function aid d fm env now =
        { ret := .ok (.pair { prompt := some "Invalid agent ID" } none),
          state := fm, sessionsCreated := 0 } ∧
      mail_function aid d fm now =
        { ret := .ok ({ agent_id := aid, agent_type := "mail-agent",
                        prompt := "Invalid agent ID", status := "error" }, none),
          state := fm }) ∧
    (∀ agent, 0 ≤ aid → aid < (d.sub_agents.length : Int) →
      d.sub_agents.get? aid.toNat = some agent →
      (agent.type ≠ some "browser-agent" →
        browser_function aid d fm env now =
          { ret := .ok (.pair
              { agent_id := some aid,
                agent_type := some (agent.type.getD "unknown"),
                prompt := some (agent.prompt.getD ""),
                url := some (agent.url.getD ""),
                status := some (.s "error") } none),
            state := fm, sessionsCreated := 0 }) ∧
      (agent.type ≠ some "mail-agent" →
        mail_function aid d fm now =
          { ret := .ok ({ agent_id := aid,
                          agent_type := agent.type.getD "unknown",
                          prompt := agent.prompt.getD "", status := "error" }, none),
            state := fm })) := by
  constructor
  · intro hout
    constructor
    · unfold browser_function
      rw [if_pos hout]
    · unfold mail_function
      rw [if_pos hout]
  · intro agent h0 hlen hget
    have hin : ¬ (aid < 0 ∨ (d.sub_agents.length : Int) ≤ aid) := by omega
    constructor
    · intro hmis
      unfold browser_function
      rw [if_neg hin, hget]
      dsimp only
      rw [if_pos hmis]
    · intro hmis
      unfold mail_function
      rw [if_neg hin, hget]
      dsimp only
      rw [if_pos hmis]

/-- Witness for C6 with two loaded sub-agents: an out-of-range call at index
5, a browser call on the mail-agent at index 0, and a mail call on the
browser-agent at index 1. -/
theorem C6_subagent_dispatch_validation_witness :
    (browser_function 5
        { current_config := {},
          sub_agents := [{ type := some "mail-agent", prompt := some "pm" },
                         { type := some "browser-agent", prompt := some "pb" }],
          paradigm := .str "Agentic" } []
        { browserUseAvailable := true, outcome := .history true "r" [] } 0 =
      { ret := .ok (.pair { prompt := some "Invalid agent ID" } none),
        state := [], sessionsCreated := 0 }) ∧
    (browser_function 0
        { current_config := {},
          sub_agents := [{ type := some "mail-agent", prompt := some "pm" },
                         { type := some "browser-agent", prompt := some "pb" }],
          paradigm := .str "Agentic" } []
        { browserUseAvailable := true, outcome := .history true "r" [] } 0 =
      { ret := .ok (.pair
          { agent_id := some 0, agent_type := some "mail-agent",
            prompt := some "pm", url := some "",
            status := some (.s "error") } none),
        state := [], sessionsCreated := 0 }) ∧
    (mail_function 1
        { current_config := {},
          sub_agents := [{ type := some "mail-agent", prompt := some "pm" },
                         { type := some "browser-agent", prompt := some "pb" }],
          paradigm := .str "Agentic" } [] 0 =
      { ret := .ok ({ agent_id := 1, agent_type := "browser-agent",
                      prompt := "pb", status := "error" }, none),
        state := [] }) := by
  refine ⟨?_, ?_, ?_⟩
  · exact ((C6_subagent_dispatch_validation _ [] _ 0 5).1 (by decide)).1
  · exact (((C6_subagent_dispatch_validation _ [] _ 0 0).2
      { type := some "mail-agent", prompt := some "pm" }
      (by decide) (by decide) (by decide)).1 (by decide))
  · exact (((C6_subagent_dispatch_validation
      { current_config := {},
        sub_agents := [{ type := some "mail-agent", prompt := some "pm" },
                       { type := some "browser-agent", prompt := some "pb" }],
        paradigm := .str "Agentic" } []
      { browserUseAvailable := true, outcome := .history true "r" [] } 0 1).2
      { type := some "browser-agent", prompt := some "pb" }
      (by decide) (by decide) (by decide)).2 (by decide))


/-! ### Recorded-data lemmas -/

theorem dictSet_dictSet_self (d : Dict V) (k : String) (v v' : V) :
    dictSet (dictSet d k v) k v' = dictSet d k v' := by
  induction d with
  | nil => simp [dictSet]
  | cons hd t ih =>
    obtain ⟨k₀, v₀⟩ := hd
    by_cases hk : k₀ = k
    · simp [dictSet, hk]
    · simp [dictSet, hk, ih]

theorem record_data_post_eq (fd : SequentialFlowData) (n v : String) :
    record_data_post fd n v =
      { fd with collected_data := dictSet fd.collected_data fd.current_agent_id
                  (dictSet (collectedFor fd) n v) } := by
  unfold record_data_post collectedFor
  match h : dictGet? fd.collected_data fd.current_agent_id with
  | none => simp [h, dictGet?_set_self, dictSet_dictSet_self]
  | some m => simp [h]

theorem record_data_snd (fd : SequentialFlowData) (n v : String) :
    (record_data fd n v).2 = record_data_post fd n v := by
  unfold record_data
  dsimp only
  split
  · rfl
  · split
    · rfl
    · rfl

theorem collectedFor_record (fd : SequentialFlowData) (n v : String) :
    collectedFor (record_data fd n v).2 = dictSet (collectedFor fd) n v := by
  rw [record_data_snd, record_data_post_eq]
  unfold collectedFor
  dsimp only
  rw [dictGet?_set_self]
  rfl

theorem record_data_current (fd : SequentialFlowData) (n v : String) :
    (record_data fd n v).2.current_agent_id = fd.current_agent_id := by
  rw [record_data_snd, record_data_post_eq]

theorem collectedFor_applyRecords :
    ∀ (calls : List (String × String)) (fd : SequentialFlowData),
      collectedFor (applyRecords fd calls) = recordFold (collectedFor fd) calls := by
  intro calls
  induction calls with
  | nil => intro fd; rfl
  | cons c rest ih =>
    intro fd
    obtain ⟨n, v⟩ := c
    rw [applyRecords, ih, collectedFor_record, recordFold, recordFold, List.foldl_cons]

theorem recordFold_append (m : Dict String) (calls : List (String × String))
    (c : String × String) :
    recordFold m (calls ++ [c]) = dictSet (recordFold m calls) c.1 c.2 := by
  simp [recordFold, List.foldl_append]

/-- Last write wins: a key mentioned by the call list ends with the last value
written for it, in particular a non-empty one when every written value is
non-empty. -/
theorem recordFold_get_of_covered (calls : List (String × String)) :
    ∀ (m : Dict String) (k : String), k ∈ calls.map Prod.fst →
      (∀ c ∈ calls, c.2 ≠ "") →
      ∃ v, dictGet? (recordFold m calls) k = some v ∧ v ≠ "" := by
  induction calls using List.reverseRecOn with
  | nil => intro m k hk _; cases hk
  | append_singleton rest c ih =>
    intro m k hk hvals
    rw [recordFold_append]
    by_cases hkc : c.1 = k
    · refine ⟨c.2, ?_, hvals c (by simp)⟩
      rw [← hkc]
      exact dictGet?_set_self _ _ _
    · rw [dictGet?_set_ne _ _ _ _ hkc]
      rw [List.map_append, List.mem_append] at hk
      rcases hk with hk | hk
      · exact ih m k hk (fun c hc => hvals c (List.mem_append_left _ hc))
      · simp at hk
        exact absurd hk.symm hkc

theorem recordFold_get_of_missing (calls : List (String × String)) :
    ∀ (m : Dict String) (k : String), k ∉ calls.map Prod.fst →
      dictGet? (recordFold m calls) k = dictGet? m k := by
  induction calls with
  | nil => intro m k _; rfl
  | cons c rest ih =>
    intro m k hk
    rw [List.map_cons, List.mem_cons] at hk
    push_neg at hk
    rw [recordFold, List.foldl_cons]
    have := ih (dictSet m c.1 c.2) k hk.2
    rw [recordFold] at this
    rw [this, dictGet?_set_ne _ _ _ _ (fun h => hk.1 h.symm)]

theorem allCollected_of_covered (dps : List SeqDataPoint) (m : Dict String)
    (h : ∀ p ∈ dps, ∃ v, dictGet? m p.name = some v ∧ v ≠ "") :
    allCollected dps m = true := by
  unfold allCollected
  rw [List.all_eq_true]
  intro p hp
  obtain ⟨v, hv, hne⟩ := h p hp
  simp [hv, hne]

theorem allCollected_false_of_missing (dps : List SeqDataPoint) (m : Dict String)
    (p : SeqDataPoint) (hp : p ∈ dps) (h : dictGet? m p.name = none) :
    allCollected dps m = false := by
  unfold allCollected
  rw [List.all_eq_false]
  exact ⟨p, hp, by simp [h]⟩

theorem allCollected_mono (dps : List SeqDataPoint) (m : Dict String) (n v : String)
    (hall : allCollected dps m = true) (hv : v ≠ "") :
    allCollected dps (dictSet m n v) = true := by
  unfold allCollected at hall ⊢
  rw [List.all_eq_true] at hall ⊢
  intro p hp
  by_cases hn : n = p.name
  · rw [← hn, dictGet?_set_self]
    simp [hv]
  · rw [dictGet?_set_ne _ _ _ _ hn]
    exact hall p hp

/-- C7: for a data-collector agent with declared data points, `record_data`
satisfies: recording non-empty values for all declared names yields
`all_data_collected = true`; recording a strict subset leaves it false;
re-recording an already-recorded name overwrites the stored value in place
rather than adding a duplicate entry; once true, re-recording an
already-collected name with a non-empty value never makes it false; and the
flag returned by the handler is exactly the all-collected test of the
post-call state. -/
theorem C7_record_data_properties (fd : SequentialFlowData) (agent : PAgent)
    (dps : List SeqDataPoint)
    (hagent : dictGet? fd.flow_tree fd.current_agent_id = some agent)
    (hdps : agent.fields.dataPoints = some dps)
    (hempty : dictGet? fd.collected_data fd.current_agent_id = none) :
    (∀ calls : List (String × String),
      (∀ c ∈ calls, c.2 ≠ "") → (∀ p ∈ dps, p.name ∈ calls.map Prod.fst) →
      allCollected dps (collectedFor (applyRecords fd calls)) = true) ∧
    (∀ (calls : List (String × String)) (p : SeqDataPoint), p ∈ dps →
      p.name ∉ calls.map Prod.fst →
      allCollected dps (collectedFor (applyRecords fd calls)) = false) ∧
    (∀ (fd' : SequentialFlowData) (n v : String),
      (dictGet? (collectedFor fd') n).isSome →
      dictKeys (collectedFor (record_data fd' n v).2) = dictKeys (collectedFor fd') ∧
      dictGet? (collectedFor (record_data fd' n v).2) n = some v) ∧
    (∀ (fd' : SequentialFlowData) (n v : String),
      allCollected dps (collectedFor fd') = true →
      (dictGet? (collectedFor fd') n).isSome → v ≠ "" →
      allCollected dps (collectedFor (record_data fd' n v).2) = true) ∧
    (∀ (n v : String) (res : DataCollectionResult) (node : NodeCfg),
      (record_data fd n v).1 = .ok (res, node) →
      res.all_data_collected =
        some (allCollected dps (collectedFor (record_data fd n v).2))) := by
  have hcf : collectedFor fd = [] := by
    simp [collectedFor, hempty]
  refine ⟨?_, ?_, ?_, ?_, ?_⟩
  · intro calls hvals hcov
    rw [collectedFor_applyRecords, hcf]
    exact allCollected_of_covered dps _ (fun p hp =>
      recordFold_get_of_covered calls [] p.name (hcov p hp) hvals)
  · intro calls p hp hmiss
    rw [collectedFor_applyRecords, hcf]
    exact allCollected_false_of_missing dps _ p hp
      (by rw [recordFold_get_of_missing calls [] p.name hmiss]; rfl)
  · intro fd' n v hsome
    rw [collectedFor_record]
    exact ⟨dictKeys_set_of_mem _ _ _ hsome, dictGet?_set_self _ _ _⟩
  · intro fd' n v hall _ hv
    rw [collectedFor_record]
    exact allCollected_mono dps _ n v hall hv
  · intro n v res node h
    have hft : (record_data_post fd n v).flow_tree = fd.flow_tree := by
      rw [record_data_post_eq]
    have hcur : (record_data_post fd n v).current_agent_id = fd.current_agent_id := by
      rw [record_data_post_eq]
    unfold record_data at h
    dsimp only at h
    rw [hft, hagent] at h
    dsimp only at h
    match hnode : create_data_collector_node (record_data_post fd n v) agent with
    | .error e =>
      rw [hnode] at h
      cases h
    | .ok nd =>
      rw [hnode] at h
      dsimp only at h
      injection h with h
      injection h with h1 h2
      rw [← h1]
      dsimp only
      rw [hdps]
      rw [record_data_snd]
      unfold collectedFor
      rw [hcur]
      rfl

/-- Witness for C7 at a data collector declaring Full Name and Email. -/
theorem C7_record_data_properties_witness :
    (allCollected [⟨"Full Name", ""⟩, ⟨"Email", ""⟩]
      (collectedFor (applyRecords
        { current_config := {},
          flow_tree := [("1", PAgent.mk
            { agentType := some "dataCollector",
              dataPoints := some [⟨"Full Name", ""⟩, ⟨"Email", ""⟩],
              identifier := some "1" } none)],
          paradigm := "sequential", current_agent_id := "1", collected_data := [],
          conv_current_agent_id := "1", conv_flow_active := true }
        [("Full Name", "Ada Lovelace"), ("Email", "ada@tzlm.io")])) = true) ∧
    (allCollected [⟨"Full Name", ""⟩, ⟨"Email", ""⟩]
      (collectedFor (applyRecords
        { current_config := {},
          flow_tree := [("1", PAgent.mk
            { agentType := some "dataCollector",
              dataPoints := some [⟨"Full Name", ""⟩, ⟨"Email", ""⟩],
              identifier := some "1" } none)],
          paradigm := "sequential", current_agent_id := "1", collected_data := [],
          conv_current_agent_id := "1", conv_flow_active := true }
        [("Full Name", "Ada Lovelace")])) = false) := by
  have h := C7_record_data_properties
    { current_config := {},
      flow_tree := [("1", PAgent.mk
        { agentType := some "dataCollector",
          dataPoints := some [⟨"Full Name", ""⟩, ⟨"Email", ""⟩],
          identifier := some "1" } none)],
      paradigm := "sequential", current_agent_id := "1", collected_data := [],
      conv_current_agent_id := "1", conv_flow_active := true }
    (PAgent.mk
      { agentType := some "dataCollector",
        dataPoints := some [⟨"Full Name", ""⟩, ⟨"Email", ""⟩],
        identifier := some "1" } none)
    [⟨"Full Name", ""⟩, ⟨"Email", ""⟩] rfl rfl rfl
  constructor
  · exact h.1 [("Full Name", "Ada Lovelace"), ("Email", "ada@tzlm.io")]
      (by decide) (by decide)
  · exact h.2.1 [("Full Name", "Ada Lovelace")] ⟨"Email", ""⟩ (by decide) (by decide)


end Tzelem
